import Mathlib

/-!
A shallow embedding of the Agent Orchestration Core of the `skill-agent`
repository (Python, package `fastapi_agent`), together with proofs of the
frozen claims about it.

Conventions of the embedding:
* Python strings are Lean `String`s; slicing `s[:n]` is `String.take`.
* Python `int` is `Int` where negative values can occur (spawn limits) and
  `Nat` where the source only ever produces non-negative values (counts).
* JSON argument objects are modelled as association lists
  `List (String × String)`; the agent loop never inspects argument values.
* `await`ed LLM calls and tool executions are modelled as oracle functions
  passed in as parameters; a Python exception raised by such a call is
  modelled as `Except.error msg`.
* Wall-clock readings (`time.time()`) are irrelevant to every claim and are
  omitted from log payloads; timestamps that flow into session state are
  passed in as an explicit `now` parameter.
-/

namespace SkillAgent

/-- The apostrophe character, used inside string literals produced by the
Python source (written via its code point). -/
def apos : String := String.mk [Char.ofNat 39]

/-- Python rendering of an `Optional[str]` inside an f-string: `None` when
absent, the string itself otherwise. -/
def pyOptStr : Option String → String
  | some s => s
  | none => "None"

/-! ## Data model (src/fastapi_agent/schemas/message.py) -/

/-- `FunctionCall` from `schemas/message.py`: name plus decoded JSON
arguments (modelled as an association list). -/
structure FunctionCall where
  name : String
  arguments : List (String × String)
deriving Repr, DecidableEq

/-- `ToolCall` from `schemas/message.py`. -/
structure ToolCall where
  id : String
  type : String := "function"
  function : FunctionCall
deriving Repr, DecidableEq

/-- `TokenUsage` from `schemas/message.py` (the two counters the agent loop
reads). -/
structure TokenUsage where
  input_tokens : Nat := 0
  output_tokens : Nat := 0
deriving Repr, DecidableEq

/-- `Message` from `schemas/message.py`.  The source's `content` union
`str | list[dict]` is modelled by its `str` arm: every message the core
itself constructs carries a plain string. -/
structure Message where
  role : String
  content : String
  thinking : Option String := none
  tool_calls : Option (List ToolCall) := none
  tool_call_id : Option String := none
  name : Option String := none
deriving Repr, DecidableEq

/-- `LLMResponse` from `schemas/message.py`. -/
structure LLMResponse where
  content : String
  thinking : Option String := none
  tool_calls : Option (List ToolCall) := none
  finish_reason : String := "stop"
  usage : Option TokenUsage := none
deriving Repr, DecidableEq

/-- Modelled from the spec: `ToolResult{success, content | error}` of the
Tool contract (§6) — the file `fastapi_agent/tools/base.py` that declares
it is not part of the sources, only its callers are.  Call sites construct
it as `ToolResult(success=…, content=…, error=…)` with `content` defaulting
to the empty string and `error` to `None`. -/
structure ToolResult where
  success : Bool
  content : String := ""
  error : Option String := none
deriving Repr, DecidableEq

/-- A Tool as the agent loop consumes it: a name and an async
`execute(**args)`; a raised exception is `Except.error`. -/
structure Tool where
  name : String
  execute : List (String × String) → Except String ToolResult

/-- Python truthiness of `response.tool_calls` (`None` and `[]` are falsy). -/
def toolCallsTruthy : Option (List ToolCall) → Bool
  | none => false
  | some l => !l.isEmpty

/-! ## TokenManager (src/fastapi_agent/core/token_manager.py) -/

/-- `TokenManager._estimate_tokens_fallback`: character-based token
estimation, `int(total_chars / 2.5)`.  `serTC` models Python's
`str(msg.tool_calls)` rendering, whose exact text the claims never depend
on. -/
def estimateTokensFallback (serTC : List ToolCall → String) (messages : List Message) : Nat :=
  let totalChars := messages.foldl (fun acc msg =>
    acc + msg.content.length
      + (match msg.thinking with | some t => t.length | none => 0)
      + (match msg.tool_calls with | some tcs => (serTC tcs).length | none => 0)) 0
  totalChars * 2 / 5

/-- The indices of user messages strictly after index 0 — the
`user_indices` list of `TokenManager.maybe_summarize_messages`. -/
def userIndices (messages : List Message) : List Nat :=
  (messages.enum.filter (fun p => p.2.role == "user" && decide (0 < p.1))).map (·.1)

/-- The injected core-memory user message of
`TokenManager.maybe_summarize_messages`. -/
def coreMemoryMessage (coreMemory : String) : Message :=
  { role := "user"
    content := "[对话历史核心记忆]\n" ++ coreMemory ++ "\n\n请基于以上历史上下文继续对话。" }

/-- The injected assistant acknowledgement of
`TokenManager.maybe_summarize_messages`. -/
def ackMessage : Message :=
  { role := "assistant", content := "好的，我已了解之前的对话内容，请继续。" }

/-- `TokenManager.maybe_summarize_messages`.

Parameters standing for the object's state and its collaborators:
* `est` — the token estimator in use (`estimate_tokens`; tiktoken when
  available, `estimateTokensFallback` otherwise — the same estimator is
  used for the trigger decision);
* `tokenLimit`, `summarizeAfterRounds`, `enableSummarization` — constructor
  fields (defaults 120000, 2, `true`);
* `coreMemory` — the current `self.core_memory`;
* `extractCore` — the oracle standing for the LLM-backed
  `_extract_core_memory(messages_to_compress, rounds_to_compress)`; it
  returns the extracted text, `""` when the LLM produced no content, or the
  sentinel `"[N 轮对话历史，提取失败]"` on failure.

Returns the updated `core_memory` and the (possibly rewritten) message
list. -/
def maybeSummarizeMessages (est : List Message → Nat) (tokenLimit summarizeAfterRounds : Nat)
    (enableSummarization : Bool) (coreMemory : String)
    (extractCore : List Message → Nat → String)
    (messages : List Message) : String × List Message :=
  if !enableSummarization then (coreMemory, messages)
  else
    let uidx := userIndices messages
    let numRounds := uidx.length
    let estimatedTokens := est messages
    let needCompress := decide (numRounds > summarizeAfterRounds) || decide (estimatedTokens > tokenLimit)
    if !needCompress then (coreMemory, messages)
    else if numRounds < 2 then (coreMemory, messages)
    else
      let compressEndIdx := uidx.getLastD 0
      let messagesToCompress := (messages.take compressEndIdx).drop 1
      if messagesToCompress.isEmpty then (coreMemory, messages)
      else
        let extracted := extractCore messagesToCompress (numRounds - 1)
        let coreMemory2 := if extracted ≠ "" then extracted else coreMemory
        let injected :=
          if coreMemory2 ≠ "" then [coreMemoryMessage coreMemory2, ackMessage] else []
        (coreMemory2, messages.take 1 ++ injected ++ messages.drop compressEndIdx)

/-! ## Agent (src/fastapi_agent/core/agent.py) -/

/-- One entry of `Agent.execution_logs` (the dicts appended during
`Agent.run`), with the wall-clock `execution_time` field omitted. -/
inductive LogEntry where
  | step (step maxSteps tokens tokenLimit : Nat)
  | llmResponse (thinking : Option String) (content : String)
      (hasToolCalls : Bool) (toolCount : Nat) (inputTokens outputTokens : Nat)
  | error (message : String)
  | completion (message : String) (totalInput totalOutput totalTokens : Nat)
  | toolCall (tool : String) (arguments : List (String × String))
  | toolResult (tool : String) (success : Bool)
      (content : Option String) (error : Option String)
  | maxStepsReached (message : String) (totalInput totalOutput totalTokens : Nat)
deriving Repr, DecidableEq

/-- One `AgentLogger` call made during `Agent.run` (payloads restricted to
the fields the claims mention; timestamps omitted). -/
inductive LogEvent where
  | startRun
  | logStep (step maxSteps tokenCount tokenLimit : Nat)
  | logRequest (messages : List Message) (tokenCount : Nat)
  | logResponse (content : String) (thinking : Option String)
      (toolCalls : Option (List ToolCall))
  | logToolExecution (toolName : String) (success : Bool)
      (content : Option String) (error : Option String)
  | logCompletion (finalResponse : String) (totalSteps : Nat) (reason : String)
deriving Repr, DecidableEq

/-- Static configuration of one `Agent` (the constructor fields `Agent.run`
reads). -/
structure AgentConfig where
  maxSteps : Nat
  toolOutputLimit : Nat := 10000
  tokenLimit : Nat := 120000
  enableSummarization : Bool := true
  summarizeAfterRounds : Nat := 2
  enableLogging : Bool := true
  tools : List Tool

/-- `self.tools` is a dict built as `{tool.name: tool for tool in tools}`:
on duplicate names the later tool wins, hence lookup of the last matching
entry. -/
def lookupTool (tools : List Tool) (name : String) : Option Tool :=
  tools.reverse.find? (fun t => t.name == name)

/-- `Agent._truncate_tool_output`. -/
def truncateToolOutput (toolOutputLimit : Nat) (content : String) : String :=
  if content.length ≤ toolOutputLimit then content
  else
    (content.take toolOutputLimit)
      ++ "\n\n[... output truncated, "
      ++ toString (content.length - toolOutputLimit)
      ++ " more characters ...]"

/-- Executing one `ToolCall` in `Agent.run` (lines 292-309): unknown tools
and raised exceptions become failed `ToolResult`s. -/
def executeToolCall (tools : List Tool) (tc : ToolCall) : ToolResult :=
  match lookupTool tools tc.function.name with
  | none => { success := false, content := "", error := some ("Unknown tool: " ++ tc.function.name) }
  | some tool =>
    match tool.execute tc.function.arguments with
    | .ok r => r
    | .error e => { success := false, content := "", error := some ("Tool execution failed: " ++ e) }

/-- The `tool`-role message appended after a tool execution
(`Agent.run` lines 331-342): successful content is truncated, errors are
prefixed with `"Error: "`. -/
def recordToolMessage (toolOutputLimit : Nat) (tc : ToolCall) (result : ToolResult) : Message :=
  { role := "tool"
    content :=
      if result.success then truncateToolOutput toolOutputLimit result.content
      else "Error: " ++ pyOptStr result.error
    tool_call_id := some tc.id
    name := some tc.function.name }

/-- The `execution_logs` entry recording a tool result (`Agent.run` lines
312-319): the full, untruncated content is stored. -/
def toolResultLogEntry (toolName : String) (result : ToolResult) : LogEntry :=
  .toolResult toolName result.success
    (if result.success then some result.content else none)
    (if !result.success then result.error else none)

/-- Mutable state threaded through the loop of `Agent.run`:
`self.messages`, the token manager's `core_memory`, `self.execution_logs`,
the `AgentLogger` event stream, and the token totals. -/
structure AgentState where
  messages : List Message
  coreMemory : String
  logs : List LogEntry
  loggerEvents : List LogEvent
  totalInput : Nat
  totalOutput : Nat

/-- Result of `Agent.run`: the returned pair plus the final state. -/
structure RunOutcome where
  final : String
  logs : List LogEntry
  loggerEvents : List LogEvent
  messages : List Message
  coreMemory : String

/-- Append logger events only when logging is enabled (`self.logger` is
`None` otherwise). -/
def pushLogger (cfg : AgentConfig) (st : List LogEvent) (evs : List LogEvent) : List LogEvent :=
  if cfg.enableLogging then st ++ evs else st

/-- Process the tool calls of one assistant response (`Agent.run` lines
279-342), in order. -/
def runToolCalls (cfg : AgentConfig) (st : AgentState) : List ToolCall → AgentState
  | [] => st
  | tc :: rest =>
    let result := executeToolCall cfg.tools tc
    let st :=
      { st with
        logs := st.logs ++ [LogEntry.toolCall tc.function.name tc.function.arguments,
                            toolResultLogEntry tc.function.name result]
        loggerEvents := pushLogger cfg st.loggerEvents
          [LogEvent.logToolExecution tc.function.name result.success
            (if result.success then some result.content else none)
            (if !result.success then result.error else none)]
        messages := st.messages ++ [recordToolMessage cfg.toolOutputLimit tc result] }
    runToolCalls cfg st rest

/-- The canonical timeout string returned when the step budget runs out. -/
def timeoutMessage (maxSteps : Nat) : String :=
  "Task couldn" ++ apos ++ "t be completed after " ++ toString maxSteps ++ " steps."

/-- The `while step < max_steps` loop of `Agent.run`, as structural
recursion on the remaining step budget (`fuel = max_steps - step`).

Oracles: `llm` is `self.llm.generate` (exception ⇒ `Except.error`);
`est` is `token_manager.estimate_tokens`; `extractCore` is the token
manager's core-memory extraction (see `maybeSummarizeMessages`). -/
def runLoop (cfg : AgentConfig) (llm : List Message → Except String LLMResponse)
    (est : List Message → Nat) (extractCore : List Message → Nat → String) :
    Nat → Nat → AgentState → RunOutcome
  | 0, _, st =>
    let errorMsg := timeoutMessage cfg.maxSteps
    { final := errorMsg
      logs := st.logs ++ [LogEntry.maxStepsReached errorMsg st.totalInput st.totalOutput
        (st.totalInput + st.totalOutput)]
      loggerEvents := pushLogger cfg st.loggerEvents
        [LogEvent.logCompletion errorMsg cfg.maxSteps "max_steps_reached"]
      messages := st.messages
      coreMemory := st.coreMemory }
  | fuel + 1, step, st =>
    let step := step + 1
    let currentTokens := est st.messages
    let (coreMemory, messages) := maybeSummarizeMessages est cfg.tokenLimit
      cfg.summarizeAfterRounds cfg.enableSummarization st.coreMemory extractCore st.messages
    let st := { st with
      coreMemory := coreMemory
      messages := messages
      logs := st.logs ++ [LogEntry.step step cfg.maxSteps currentTokens cfg.tokenLimit]
      loggerEvents := pushLogger cfg st.loggerEvents
        [LogEvent.logStep step cfg.maxSteps currentTokens cfg.tokenLimit,
         LogEvent.logRequest messages currentTokens] }
    match llm st.messages with
    | .error e =>
      let errorMsg := "LLM call failed: " ++ e
      { final := errorMsg
        logs := st.logs ++ [LogEntry.error errorMsg]
        loggerEvents := pushLogger cfg st.loggerEvents
          [LogEvent.logCompletion errorMsg step "error"]
        messages := st.messages
        coreMemory := st.coreMemory }
    | .ok response =>
      let totalInput := st.totalInput + (match response.usage with | some u => u.input_tokens | none => 0)
      let totalOutput := st.totalOutput + (match response.usage with | some u => u.output_tokens | none => 0)
      let assistantMsg : Message :=
        { role := "assistant"
          content := response.content
          thinking := response.thinking
          tool_calls := response.tool_calls }
      let st := { st with
        totalInput := totalInput
        totalOutput := totalOutput
        logs := st.logs ++ [LogEntry.llmResponse response.thinking response.content
          (toolCallsTruthy response.tool_calls)
          (match response.tool_calls with | some tcs => tcs.length | none => 0)
          (match response.usage with | some u => u.input_tokens | none => 0)
          (match response.usage with | some u => u.output_tokens | none => 0)]
        loggerEvents := pushLogger cfg st.loggerEvents
          [LogEvent.logResponse response.content response.thinking response.tool_calls]
        messages := st.messages ++ [assistantMsg] }
      if !toolCallsTruthy response.tool_calls then
        { final := response.content
          logs := st.logs ++ [LogEntry.completion "Task completed successfully"
            st.totalInput st.totalOutput (st.totalInput + st.totalOutput)]
          loggerEvents := pushLogger cfg st.loggerEvents
            [LogEvent.logCompletion response.content step "task_completed"]
          messages := st.messages
          coreMemory := st.coreMemory }
      else
        let st := runToolCalls cfg st ((response.tool_calls).getD [])
        runLoop cfg llm est extractCore fuel step st

/-- `Agent.run()` started on message history `messages` with core memory
`coreMemory`. -/
def agentRun (cfg : AgentConfig) (llm : List Message → Except String LLMResponse)
    (est : List Message → Nat) (extractCore : List Message → Nat → String)
    (messages : List Message) (coreMemory : String) : RunOutcome :=
  runLoop cfg llm est extractCore cfg.maxSteps 0
    { messages := messages
      coreMemory := coreMemory
      logs := []
      loggerEvents := pushLogger cfg [] [LogEvent.startRun]
      totalInput := 0
      totalOutput := 0 }

/-! ## SpawnAgentTool (src/fastapi_agent/tools/spawn_agent_tool.py) -/

/-- Python truthiness of an `Optional[str]` (`None` and `""` are falsy). -/
def optStrTruthy : Option String → Bool
  | none => false
  | some s => !s.isEmpty

/-- Python `x or default` for an `Optional[str]`. -/
def pyOrStr (x : Option String) (default : String) : String :=
  match x with
  | some s => if s.isEmpty then default else s
  | none => default

/-- Constructor state of one `SpawnAgentTool` instance.  `parentToolNames`
are the keys of the `parent_tools` dict in insertion order; only names
matter to the control flow being verified. -/
structure SpawnConfig where
  parentToolNames : List String
  workspaceDir : String
  currentDepth : Nat
  maxDepth : Nat
  defaultMaxSteps : Int := 15
  defaultTokenLimit : Nat := 50000
deriving Repr, DecidableEq

/-- The configuration of the child `Agent` constructed by
`SpawnAgentTool.execute` (the constructor arguments the claims are
about). -/
structure ChildAgentSpec where
  systemPrompt : String
  toolNames : List String
  maxSteps : Int
  tokenLimit : Nat
  agentName : String
deriving Repr, DecidableEq

/-- `SpawnAgentTool._build_sub_agent_tools`, at the level of tool names
(the fresh `SpawnAgentTool` created in the inherit-all branch keeps the
name `spawn_agent`). -/
def buildSubAgentTools (cfg : SpawnConfig) (toolNames : Option (List String)) : List String :=
  match toolNames with
  | some names =>
    names.filter (fun n =>
      cfg.parentToolNames.contains n
        && !(n == "spawn_agent" && decide (cfg.currentDepth + 1 ≥ cfg.maxDepth)))
  | none =>
    cfg.parentToolNames.filterMap (fun n =>
      if n == "spawn_agent" then
        if cfg.currentDepth + 1 < cfg.maxDepth then some "spawn_agent" else none
      else some n)

/-- `SpawnAgentTool._build_sub_agent_prompt`. -/
def buildSubAgentPrompt (cfg : SpawnConfig) (role context : Option String) : String :=
  let roleLine :=
    if optStrTruthy role then
      "You are a specialized AI assistant acting as a **" ++ pyOptStr role ++ "**."
    else "You are an AI assistant executing a delegated task."
  let core := "\nYour task has been delegated from a parent agent. Focus on completing it efficiently and thoroughly.\n\n## Guidelines\n- Stay focused on the assigned task - do not deviate\n- Be thorough but concise in your work\n- Use available tools when necessary\n- Report your findings and results clearly at the end\n- If you encounter blockers, explain them clearly\n\n## Important\n- You have independent context - you don" ++ apos ++ "t see the parent" ++ apos ++ "s conversation\n- Complete your task fully before finishing\n- Provide actionable results the parent can use\n"
  let contextPart :=
    if optStrTruthy context then
      ["\n## Context from Parent Agent\n" ++ pyOptStr context ++ "\n"]
    else []
  let workspacePart :=
    "\n## Workspace\nYou are working in: `" ++ cfg.workspaceDir ++ "`\nAll relative paths are resolved from this directory.\n"
  let depthPart :=
    if cfg.currentDepth + 1 < cfg.maxDepth then
      ["\n## Sub-Agent Capability\nYou can spawn sub-agents if needed (depth "
        ++ toString (cfg.currentDepth + 1) ++ "/" ++ toString cfg.maxDepth
        ++ ").\nUse this sparingly and only for truly independent subtasks.\n"]
    else []
  String.intercalate "\n" ([roleLine, core] ++ contextPart ++ [workspacePart] ++ depthPart)

/-- `SpawnAgentTool._format_result`. -/
def formatSpawnResult (cfg : SpawnConfig) (task : String) (role : Option String)
    (result : String) (stepsUsed toolCalls : Nat) (maxSteps : Int) : String :=
  let header := "## Sub-Agent Execution Result"
    ++ (if optStrTruthy role then " (" ++ pyOptStr role ++ ")" else "")
  let taskDisplay := if task.length > 300 then task.take 300 ++ "..." else task
  header ++ "\n\n**Task:** " ++ taskDisplay
    ++ "\n**Execution:** " ++ toString stepsUsed ++ "/" ++ toString maxSteps
    ++ " steps, " ++ toString toolCalls ++ " tool calls"
    ++ "\n**Depth:** " ++ toString (cfg.currentDepth + 1) ++ "/" ++ toString cfg.maxDepth
    ++ "\n\n---\n\n" ++ result ++ "\n"

/-- The depth-limit error message of `SpawnAgentTool.execute`. -/
def depthLimitError (maxDepth : Nat) : String :=
  "Maximum agent nesting depth (" ++ toString maxDepth
    ++ ") reached. Cannot spawn more sub-agents. Consider completing the task with available tools instead."

/-- Recognizers for `execution_logs` entry kinds, as `log.get("type") == …`
comparisons do in the source. -/
def isStepEntry : LogEntry → Bool
  | .step _ _ _ _ => true
  | _ => false

/-- `log.get("type") == "tool_call"`. -/
def isToolCallEntry : LogEntry → Bool
  | .toolCall _ _ => true
  | _ => false

/-- `log.get("type") == "llm_response"`. -/
def isLlmResponseEntry : LogEntry → Bool
  | .llmResponse _ _ _ _ _ _ => true
  | _ => false

/-- `log.get("type") == "tool_result"`. -/
def isToolResultEntry : LogEntry → Bool
  | .toolResult _ _ _ _ => true
  | _ => false

/-- `log.get("type") == "max_steps_reached"`. -/
def isMaxStepsReachedEntry : LogEntry → Bool
  | .maxStepsReached _ _ _ _ => true
  | _ => false

/-- `SpawnAgentTool.execute`.  `runChild` is the oracle standing for
constructing and running the child `Agent` (`sub_agent.run()`); an
exception anywhere in the `try` block is `Except.error`.  Besides the
`ToolResult`, the model returns the `ChildAgentSpec` of the child Agent
constructed (or `none` when no child was constructed), so that claims
about child construction can be stated. -/
def spawnExecute (cfg : SpawnConfig)
    (runChild : ChildAgentSpec → String → Except String (String × List LogEntry))
    (task : String) (role context : Option String)
    (tools : Option (List String)) (maxSteps : Option Int) :
    ToolResult × Option ChildAgentSpec :=
  if cfg.currentDepth ≥ cfg.maxDepth then
    ({ success := false, content := "", error := some (depthLimitError cfg.maxDepth) }, none)
  else
    let subTools := buildSubAgentTools cfg tools
    let systemPrompt := buildSubAgentPrompt cfg role context
    let effectiveMaxSteps : Int :=
      min (match maxSteps with
           | some v => if v = 0 then cfg.defaultMaxSteps else v
           | none => cfg.defaultMaxSteps) 30
    let spec : ChildAgentSpec :=
      { systemPrompt := systemPrompt
        toolNames := subTools
        maxSteps := effectiveMaxSteps
        tokenLimit := cfg.defaultTokenLimit
        agentName := "sub_agent_d" ++ toString (cfg.currentDepth + 1) ++ "_"
          ++ pyOrStr role "general" }
    match runChild spec task with
    | .ok (result, logs) =>
      let stepsUsed := logs.countP (fun l => isStepEntry l)
      let toolCalls := logs.countP (fun l => isToolCallEntry l)
      ({ success := true
         content := formatSpawnResult cfg task role result stepsUsed toolCalls effectiveMaxSteps },
       some spec)
    | .error e =>
      ({ success := false, content := ""
         error := some ("Sub-agent execution failed: " ++ e) }, some spec)

/-! ## Team (src/fastapi_agent/core/team.py) -/

/-- `TeamMemberConfig` from `schemas/team.py` (the fields `Team` reads). -/
structure TeamMemberConfig where
  id : String
  name : String
  role : String
  instructions : Option String := none
  tools : List String := []
deriving Repr, DecidableEq

/-- `MemberRunResult` from `schemas/team.py` (metadata omitted). -/
structure MemberRunResult where
  member_name : String
  member_role : String
  task : String
  response : String
  success : Bool
  error : Option String := none
  steps : Nat := 0
deriving Repr, DecidableEq

/-- The configuration of the member `Agent` constructed by
`Team._run_member` (the constructor arguments the claims are about). -/
structure MemberAgentSpec where
  systemPrompt : String
  toolNames : List String
  maxSteps : Nat
deriving Repr, DecidableEq

/-- Member tool selection of `Team._run_member` (lines 174-197), at the
level of tool names: filter the team's available tools to the member's
declared names, then append a fresh `spawn_agent` when enabled, declared,
and depth budget remains. -/
def memberToolNames (availableTools : List String) (enableSpawnAgent : Bool)
    (currentDepth spawnMaxDepth : Nat) (mc : TeamMemberConfig) : List String :=
  if mc.tools.isEmpty then []
  else
    availableTools.filter (fun n => mc.tools.contains n)
      ++ (if enableSpawnAgent && mc.tools.contains "spawn_agent"
            && decide (currentDepth < spawnMaxDepth)
          then ["spawn_agent"] else [])

/-- The member-specific system prompt of `Team._run_member`. -/
def memberSystemPrompt (mc : TeamMemberConfig) : String :=
  "You are " ++ mc.name ++ ", a " ++ mc.role ++ ".\n\n"
    ++ pyOrStr mc.instructions ""
    ++ "\n\nFocus on your area of expertise and provide clear, actionable responses.\n"

/-- `team.py` constructs `RunRecord(...)` at lines 250, 283, 486, 529 and
798, but its import block (lines 3-23) never imports `RunRecord` (the class
lives in `core/session.py` and is not re-exported into `team.py`'s module
namespace).  Every execution of one of those constructor calls therefore
raises `NameError`, whose `str(e)` is this string. -/
def nameRunRecordError : String :=
  "name " ++ apos ++ "RunRecord" ++ apos ++ " is not defined"

/-- Python truthiness of the guard
`if session_id and self._current_run_id:` of `Team._run_member`
(lines 249 and 281): both the session id and the current run id must be
non-`None` and nonempty. -/
def sessionGuardTruthy (session_id current_run_id : Option String) : Bool :=
  optStrTruthy session_id && optStrTruthy current_run_id

/-- `Team._run_member`: build the member Agent (with `max_steps=10`), run
it via the oracle `runAgent` (an exception anywhere in the `try` block is
`Except.error`), and derive the `MemberRunResult` exactly as lines 220-241
do.  The model additionally returns the `MemberAgentSpec`/task pair of the
member Agent run, so claims about what was run can be stated.

Session persistence (lines 249-262 and 281-295): when
`session_id and self._current_run_id` is truthy, both the `try` block and
the `except` handler construct a `RunRecord(...)` — a name `team.py` never
imports — so the `try` block raises `NameError`, the handler catches it,
recomputes the result, and then raises the same `NameError` at its own
`RunRecord(...)`; the exception propagates out of `_run_member` and no
`MemberRunResult` is returned.  `Except.error nameRunRecordError` models
that escaping exception. -/
def runMember (runAgent : MemberAgentSpec → String → Except String (String × List LogEntry))
    (availableTools : List String) (enableSpawnAgent : Bool)
    (currentDepth spawnMaxDepth : Nat)
    (session_id current_run_id : Option String)
    (mc : TeamMemberConfig) (task : String) :
    Except String (MemberRunResult × List (MemberAgentSpec × String)) :=
  let spec : MemberAgentSpec :=
    { systemPrompt := memberSystemPrompt mc
      toolNames := memberToolNames availableTools enableSpawnAgent currentDepth spawnMaxDepth mc
      maxSteps := 10 }
  match runAgent spec task with
  | .ok (responseContent, logs) =>
    let steps := logs.countP (fun l => isStepEntry l)
    let maxStepsReached := logs.any (fun l => isMaxStepsReachedEntry l)
    let llmFailed := !responseContent.isEmpty && responseContent.startsWith "LLM call failed"
    let success := !responseContent.isEmpty && !maxStepsReached && !llmFailed
    if sessionGuardTruthy session_id current_run_id then
      Except.error nameRunRecordError
    else
      Except.ok ({ member_name := mc.name
                   member_role := mc.role
                   task := task
                   response := responseContent
                   success := success
                   error := none
                   steps := steps }, [(spec, task)])
  | .error e =>
    if sessionGuardTruthy session_id current_run_id then
      Except.error nameRunRecordError
    else
      Except.ok ({ member_name := mc.name
                   member_role := mc.role
                   task := task
                   response := ""
                   success := false
                   error := some e
                   steps := 0 }, [(spec, task)])

/-- The dynamically-built single-member delegation tool
`delegate_task_to_member(member_id, task)` of `Team.run` (lines 401-432).
Returns the tool's string result together with the member Agent runs it
performed.  `session_id` is the `run_context.session_id` the closure
captures (`Team.run` always sets it to `session_id or str(uuid4())`, a
truthy value) and `current_run_id` is `self._current_run_id`; an exception
escaping `_run_member` propagates out of the tool function
(`Except.error`). -/
def delegateTaskToMember
    (members : List TeamMemberConfig)
    (runAgent : MemberAgentSpec → String → Except String (String × List LogEntry))
    (availableTools : List String) (enableSpawnAgent : Bool)
    (currentDepth spawnMaxDepth : Nat)
    (session_id current_run_id : Option String)
    (member_id task : String) : Except String (String × List (MemberAgentSpec × String)) :=
  match members.find? (fun m => m.id == member_id) with
  | none =>
    Except.ok ("Error: Member with ID " ++ apos ++ member_id ++ apos
      ++ " not found in team. Available members: "
      ++ String.intercalate ", " (members.map (·.id)), [])
  | some mc =>
    match runMember runAgent availableTools enableSpawnAgent currentDepth spawnMaxDepth
        session_id current_run_id mc task with
    | .error e => Except.error e
    | .ok (result, invs) =>
      Except.ok (if result.success then mc.name ++ " completed task:\n" ++ result.response
                 else mc.name ++ " failed: " ++ pyOptStr result.error, invs)

/-! ## Dependency execution (src/fastapi_agent/core/team.py, lines 553-813) -/

/-- `TaskWithDependencies` from `schemas/team.py` (metadata omitted; the
`steps` it carries is threaded separately). -/
structure TaskW where
  id : String
  task : String
  assigned_to : String
  depends_on : List String := []
  status : String := "pending"
  result : Option String := none
deriving Repr, DecidableEq

/-- `task_map[i].depends_on`, with `[]` for an id that names no task. -/
def depsOf (tasks : List TaskW) (i : String) : List String :=
  match tasks.find? (fun t => t.id == i) with
  | some t => t.depends_on
  | none => []

/-- A list from which a filter keeps at least one element strictly shrinks
when the complementary filter is applied (termination measure of the
layering loop). -/
theorem length_filter_not_lt {α : Type} (l : List α) (p : α → Bool)
    (h : ¬(l.filter p).isEmpty = true) :
    (l.filter (fun x => !p x)).length < l.length := by
  have hsplit := List.length_eq_length_filter_add (l := l) p
  have hpos : 0 < (l.filter p).length := by
    cases hfe : l.filter p with
    | nil => simp [hfe] at h
    | cons a t => simp
  have heq : (l.filter (fun x => !p x)).length = (l.filter (!p ·)).length := rfl
  omega

/-- The `while remaining` loop of `Team._resolve_dependencies`: peel off
the layer of tasks with in-degree 0, decrement the in-degree of each
remaining task once per layer member it depends on, recurse.  `remaining`
is carried as the list of not-yet-layered tasks (the source carries a set
of ids and looks tasks up in `task_map`). -/
def resolveLoop (tasks : List TaskW) (remaining : List TaskW) (deg : String → Nat) :
    Except String (List (List TaskW)) :=
  if hr : remaining.isEmpty then .ok []
  else
    let layer := remaining.filter (fun t => deg t.id == 0)
    if hl : layer.isEmpty then
      .error ("Circular dependency detected among tasks: \x7b"
        ++ String.intercalate ", " (remaining.map (fun t => apos ++ t.id ++ apos)) ++ "\x7d")
    else
      let rest := remaining.filter (fun t => !(deg t.id == 0))
      let deg2 := fun i => deg i - layer.countP (fun u => (depsOf tasks i).contains u.id)
      match resolveLoop tasks rest deg2 with
      | .ok ls => .ok (layer :: ls)
      | .error e => .error e
termination_by remaining.length
decreasing_by
  exact length_filter_not_lt remaining (fun t => deg t.id == 0) hl

/-- `Team._resolve_dependencies`: first the dangling-dependency check
(raising at the first task with a dependency naming no task in the list),
then the topological layering loop with in-degrees initialized to
`len(task.depends_on)`. -/
def resolveDependencies (tasks : List TaskW) : Except String (List (List TaskW)) :=
  let ids := tasks.map (fun t => t.id)
  match tasks.find? (fun t => t.depends_on.any (fun d => !ids.contains d)) with
  | some t =>
    .error ("Task " ++ apos ++ t.id ++ apos ++ " depends on non-existent task " ++ apos
      ++ ((t.depends_on.find? (fun d => !ids.contains d)).getD "") ++ apos)
  | none => resolveLoop tasks tasks (fun i => (depsOf tasks i).length)

/-- `Team._execute_task_with_context` for one task: the task transitions to
`running`, the member with the task's assigned role is resolved, the
dependency-results appendix is added to the task description, and the
member outcome decides `completed`/`failed`.  Returns the updated task and
the `steps` recorded in its metadata.

The oracle `memberOracle` stands for `Team._run_member`, which can raise
(in particular, on every session-backed call it raises the `NameError` of
the unimported `RunRecord`, see `runMember`); an `Except.error` takes the
`except` branch of lines 654-663: the task ends `failed` with result
`"Execution error: <str(e)>"` and, its metadata never being set, a step
contribution of 0. -/
def execTask (members : List TeamMemberConfig)
    (memberOracle : TeamMemberConfig → String → Except String MemberRunResult)
    (completed : List (String × String)) (t : TaskW) : TaskW × Nat :=
  match members.find? (fun m => m.role == t.assigned_to) with
  | none =>
    ({ t with status := "failed"
              result := some ("Error: No member with role " ++ apos ++ t.assigned_to
                ++ apos ++ " found") }, 0)
  | some mc =>
    let ctx :=
      if t.depends_on.isEmpty then ""
      else "\n\n依赖任务结果:" ++ String.join (t.depends_on.map (fun d =>
        match completed.lookup d with
        | some v => "\n[" ++ d ++ "]: " ++ v
        | none => ""))
    match memberOracle mc (t.task ++ ctx) with
    | .error e =>
      ({ t with status := "failed", result := some ("Execution error: " ++ e) }, 0)
    | .ok r =>
      if r.success then
        ({ t with status := "completed", result := some r.response }, r.steps)
      else
        ({ t with status := "failed"
                  result := some (match r.error with
                    | some e => if e.isEmpty then "Unknown error" else e
                    | none => "Unknown error") }, r.steps)

/-- The sequential `for task in layer_results` scan of
`Team.run_with_dependencies` (lines 700-704): record each result into
`completed_results` and the step total, stopping at the first task whose
status is `failed`. -/
def layerScan : List (String × String) → Nat → List (TaskW × Nat) →
    List (String × String) × Nat × Option TaskW
  | completed, steps, [] => (completed, steps, none)
  | completed, steps, (t, s) :: rest =>
    let completed := completed ++ [(t.id, match t.result with | some r => r | none => "")]
    let steps := steps + s
    if t.status == "failed" then (completed, steps, some t)
    else layerScan completed steps rest

/-- The skipped version of a later-layer task after failure of task
`fid` (lines 709-711). -/
def skippedTask (fid : String) (t : TaskW) : TaskW :=
  { t with status := "skipped"
           result := some ("Skipped due to dependency failure: " ++ fid) }

/-- Accumulated outcome of the layer loop of
`Team.run_with_dependencies`. `upd` collects the mutated task objects
keyed by id; `executed` the ids of tasks that transitioned to `running`;
`failed` the id of the failed task that aborted the loop, if any. -/
structure GoOut where
  upd : List (String × TaskW)
  completed : List (String × String)
  steps : Nat
  executed : List String
  failed : Option String
  failedMsg : String
deriving Repr, DecidableEq

/-- The `for layer_idx, layer in enumerate(layers)` loop of
`Team.run_with_dependencies`: execute each layer, scan its results, and on
the first failed task mark every task of every later layer as skipped and
stop. -/
def depGo (members : List TeamMemberConfig)
    (memberOracle : TeamMemberConfig → String → Except String MemberRunResult) :
    List (List TaskW) → List (String × String) → Nat → List (String × TaskW) →
    List String → GoOut
  | [], completed, steps, upd, executed =>
    { upd := upd, completed := completed, steps := steps, executed := executed
      failed := none, failedMsg := "" }
  | layer :: restLayers, completed, steps, upd, executed =>
    let executed := executed ++ layer.map (fun t => t.id)
    let results := layer.map (fun t => execTask members memberOracle completed t)
    let upd := upd ++ results.map (fun p => (p.1.id, p.1))
    match layerScan completed steps results with
    | (completed, steps, none) => depGo members memberOracle restLayers completed steps upd executed
    | (completed, steps, some f) =>
      { upd := upd ++ restLayers.flatten.map (fun t => (t.id, skippedTask f.id t))
        completed := completed
        steps := steps
        executed := executed
        failed := some f.id
        failedMsg := "执行失败：任务 " ++ apos ++ f.id ++ apos ++ " 执行失败\n\n失败详情:\n"
          ++ pyOptStr f.result }

/-- Final value of a task object after the run: the mutated version from
`upd` if the task was touched, the original otherwise. -/
def applyUpd (upd : List (String × TaskW)) (t : TaskW) : TaskW :=
  (upd.lookup t.id).getD t

/-- `DependencyRunResponse` from `schemas/team.py`, extended with the
`failed_task` metadata entry and the `executed` instrumentation (ids that
transitioned to `running`). -/
structure DependencyRunResponse where
  success : Bool
  message : String
  tasks : List TaskW
  execution_order : List (List String)
  total_steps : Nat
  failed_task : Option String
  executed : List String
deriving Repr, DecidableEq

/-- `Team.run_with_dependencies` (trace bookkeeping omitted): a
`ValueError` from `_resolve_dependencies` takes the `except` path with no
task executed; otherwise layers run in order until done or a task fails.

Session persistence: the failure return (lines 718-725), the success
return (lines 745-752) and the generic `except` handler (lines 770-777)
each call `_save_dependency_run_to_session` when `session_id` is truthy,
and that helper constructs a `RunRecord(...)` (line 798) — a name
`team.py` never imports.  With a truthy `session_id` the in-`try` save
raises `NameError`, the `except` handler catches it and then raises the
same `NameError` at its own save, so the call returns no response at all:
the exception escapes `run_with_dependencies` (`Except.error`).  The
second component of the result is instrumentation — the ids of tasks that
transitioned to `running` — which is meaningful even when the call
raises. -/
def runWithDependencies (members : List TeamMemberConfig)
    (memberOracle : TeamMemberConfig → String → Except String MemberRunResult)
    (session_id : Option String)
    (tasks : List TaskW) : Except String DependencyRunResponse × List String :=
  match resolveDependencies tasks with
  | .error e =>
    (if optStrTruthy session_id then Except.error nameRunRecordError
     else Except.ok
       { success := false, message := "依赖执行失败: " ++ e, tasks := tasks
         execution_order := [], total_steps := 0, failed_task := none, executed := [] }, [])
  | .ok layers =>
    let executionOrder := layers.map (fun l => l.map (fun t => t.id))
    let g := depGo members memberOracle layers [] 0 [] []
    let finalTasks := tasks.map (applyUpd g.upd)
    (match g.failed with
     | some fid =>
       if optStrTruthy session_id then Except.error nameRunRecordError
       else Except.ok
         { success := false, message := g.failedMsg, tasks := finalTasks
           execution_order := executionOrder, total_steps := g.steps
           failed_task := some fid, executed := g.executed }
     | none =>
       let completedTasks := finalTasks.filter (fun t => t.status == "completed")
       if optStrTruthy session_id then Except.error nameRunRecordError
       else Except.ok
         { success := true
           message := "所有任务执行完成 (" ++ toString completedTasks.length ++ "/"
             ++ toString finalTasks.length ++ ")\n\n执行结果:\n"
             ++ String.join (finalTasks.map (fun t =>
               "\n[" ++ t.id ++ "] " ++ t.status ++ ": "
                 ++ ((match t.result with | some r => r | none => "").take 200) ++ "..."))
           tasks := finalTasks, execution_order := executionOrder
           total_steps := g.steps, failed_task := none, executed := g.executed }, g.executed)

/-! ## Session layer (src/fastapi_agent/core/session.py) -/

/-- `AgentRunRecord` (metadata modelled as string pairs; timestamps as
naturals). -/
structure AgentRunRecord where
  run_id : String
  task : String
  response : String
  success : Bool
  steps : Nat
  timestamp : Nat
  metadata : List (String × String) := []
deriving Repr, DecidableEq

/-- `AgentSession`. -/
structure AgentSession where
  session_id : String
  agent_name : String
  user_id : Option String
  runs : List AgentRunRecord
  state : List (String × String)
  created_at : Nat
  updated_at : Nat
deriving Repr, DecidableEq

/-- State of an `AgentSessionManager`: the in-memory session dict, the
optional storage path, and the storage file's current content (`none`
until the manager has written it; serialization is modelled as the session
map itself). -/
structure AgentSessionManager where
  sessions : List (String × AgentSession)
  storage_path : Option String := none
  storedData : Option (List (String × AgentSession)) := none
deriving Repr, DecidableEq

/-- `AgentSessionManager.get_session`: get or create. -/
def AgentSessionManager.getSession (st : AgentSessionManager) (session_id agent_name : String)
    (user_id : Option String) (now : Nat) : AgentSessionManager × AgentSession :=
  match st.sessions.lookup session_id with
  | some s => (st, s)
  | none =>
    let s : AgentSession :=
      { session_id := session_id, agent_name := agent_name, user_id := user_id
        runs := [], state := [], created_at := now, updated_at := now }
    ({ st with sessions := st.sessions ++ [(session_id, s)] }, s)

/-- `AgentSessionManager.add_run` (synchronous variant): append the record
and persist only when the session already exists; otherwise do nothing. -/
def AgentSessionManager.addRun (st : AgentSessionManager) (session_id : String)
    (run : AgentRunRecord) (now : Nat) : AgentSessionManager :=
  match st.sessions.lookup session_id with
  | none => st
  | some sess =>
    let sess2 := { sess with runs := sess.runs ++ [run], updated_at := now }
    let sessions2 := st.sessions.map (fun p => if p.1 == session_id then (p.1, sess2) else p)
    match st.storage_path with
    | some _ => { st with sessions := sessions2, storedData := some sessions2 }
    | none => { st with sessions := sessions2 }

/-- `AgentSessionManager.add_run_async`: identical state transition (the
lock serializes it; the atomic temp-file write leaves the same final file
content). -/
def AgentSessionManager.addRunAsync (st : AgentSessionManager) (session_id : String)
    (run : AgentRunRecord) (now : Nat) : AgentSessionManager :=
  match st.sessions.lookup session_id with
  | none => st
  | some sess =>
    let sess2 := { sess with runs := sess.runs ++ [run], updated_at := now }
    let sessions2 := st.sessions.map (fun p => if p.1 == session_id then (p.1, sess2) else p)
    match st.storage_path with
    | some _ => { st with sessions := sessions2, storedData := some sessions2 }
    | none => { st with sessions := sessions2 }

/-- Team-session `RunRecord` (metadata omitted as it never influences
control flow). -/
structure RunRecord where
  run_id : String
  parent_run_id : Option String
  runner_type : String
  runner_name : String
  task : String
  response : String
  success : Bool
  steps : Nat
  timestamp : Nat
deriving Repr, DecidableEq

/-- `TeamSession`. -/
structure TeamSession where
  session_id : String
  team_name : String
  user_id : Option String
  runs : List RunRecord
  state : List (String × String)
  created_at : Nat
  updated_at : Nat
deriving Repr, DecidableEq

/-- State of a `TeamSessionManager` (see `AgentSessionManager`). -/
structure TeamSessionManager where
  sessions : List (String × TeamSession)
  storage_path : Option String := none
  storedData : Option (List (String × TeamSession)) := none
deriving Repr, DecidableEq

/-- `TeamSessionManager.add_run` (synchronous variant). -/
def TeamSessionManager.addRun (st : TeamSessionManager) (session_id : String)
    (run : RunRecord) (now : Nat) : TeamSessionManager :=
  match st.sessions.lookup session_id with
  | none => st
  | some sess =>
    let sess2 := { sess with runs := sess.runs ++ [run], updated_at := now }
    let sessions2 := st.sessions.map (fun p => if p.1 == session_id then (p.1, sess2) else p)
    match st.storage_path with
    | some _ => { st with sessions := sessions2, storedData := some sessions2 }
    | none => { st with sessions := sessions2 }

/-- `TeamSessionManager.add_run_async`: identical state transition under
the manager's lock. -/
def TeamSessionManager.addRunAsync (st : TeamSessionManager) (session_id : String)
    (run : RunRecord) (now : Nat) : TeamSessionManager :=
  match st.sessions.lookup session_id with
  | none => st
  | some sess =>
    let sess2 := { sess with runs := sess.runs ++ [run], updated_at := now }
    let sessions2 := st.sessions.map (fun p => if p.1 == session_id then (p.1, sess2) else p)
    match st.storage_path with
    | some _ => { st with sessions := sessions2, storedData := some sessions2 }
    | none => { st with sessions := sessions2 }

/-! ## Theorems for the claims -/

/-- Claim C4: whenever a `SpawnAgentTool` instance has
`current_depth ≥ max_depth`, `execute` returns a failed `ToolResult` whose
error message is the depth-bound explanation (containing the phrase
`Maximum agent nesting depth` and the `max_depth` value), no child Agent
is constructed, and no LLM call is made (the child-run oracle is never
consulted). -/
theorem spawn_execute_depth_limit_fails (cfg : SpawnConfig)
    (runChild : ChildAgentSpec → String → Except String (String × List LogEntry))
    (task : String) (role context : Option String)
    (tools : Option (List String)) (maxSteps : Option Int)
    (h : cfg.currentDepth ≥ cfg.maxDepth) :
    spawnExecute cfg runChild task role context tools maxSteps =
      ({ success := false
         content := ""
         error := some ("Maximum agent nesting depth (" ++ toString cfg.maxDepth
           ++ ") reached. Cannot spawn more sub-agents. Consider completing the task with available tools instead.") },
       none) := by
  simp [spawnExecute, h, depthLimitError]

/-- Witness for C4: a spawn tool at depth 2 with `max_depth = 2` fails with
the depth-limit error and constructs no child. -/
theorem spawn_execute_depth_limit_fails_witness :
    spawnExecute
      { parentToolNames := ["read_file"], workspaceDir := "./workspace"
        currentDepth := 2, maxDepth := 2 }
      (fun _ _ => Except.ok ("done", [])) "x" none none none none =
      ({ success := false
         content := ""
         error := some ("Maximum agent nesting depth (" ++ toString 2
           ++ ") reached. Cannot spawn more sub-agents. Consider completing the task with available tools instead.") },
       none) :=
  spawn_execute_depth_limit_fails _ _ _ _ _ _ _ (by decide)

/-- Counterexample to claim C5 as stated: below the depth limit, a
caller-supplied `max_steps = -5` is passed through to the child Agent
unchanged — the child is created with `max_steps = -5 < 1`, so the
effective value is not clamped to the interval `[1, 30]`. -/
theorem spawn_max_steps_no_lower_clamp_counterexample :
    (spawnExecute
      { parentToolNames := [], workspaceDir := "ws", currentDepth := 0, maxDepth := 3 }
      (fun _ _ => Except.ok ("done", [])) "t" none none none (some (-5))).2.map
        (fun spec => spec.maxSteps) = some (-5) ∧ ((-5 : Int) < 1) := by
  constructor
  · rfl
  · decide

/-- Claim C5 (amended): below the depth limit, the child Agent's effective
`max_steps` equals `min(max_steps, 30)` when `max_steps` is supplied and
nonzero, and `min(default_max_steps, 30)` when it is omitted or zero; in
particular no child is ever created with `max_steps` above 30 (there is no
lower clamp: a negative supplied value is passed through). -/
theorem spawn_execute_effective_max_steps (cfg : SpawnConfig)
    (runChild : ChildAgentSpec → String → Except String (String × List LogEntry))
    (task : String) (role context : Option String)
    (tools : Option (List String)) (maxSteps : Option Int)
    (h : cfg.currentDepth < cfg.maxDepth) :
    ∃ spec, (spawnExecute cfg runChild task role context tools maxSteps).2 = some spec
      ∧ spec.maxSteps =
          min (match maxSteps with
               | some v => if v = 0 then cfg.defaultMaxSteps else v
               | none => cfg.defaultMaxSteps) 30
      ∧ spec.maxSteps ≤ 30 := by
  have hnot : ¬ cfg.currentDepth ≥ cfg.maxDepth := by omega
  unfold spawnExecute
  simp only [hnot, if_false]
  set spec : ChildAgentSpec :=
    { systemPrompt := buildSubAgentPrompt cfg role context
      toolNames := buildSubAgentTools cfg tools
      maxSteps := min (match maxSteps with
        | some v => if v = 0 then cfg.defaultMaxSteps else v
        | none => cfg.defaultMaxSteps) 30
      tokenLimit := cfg.defaultTokenLimit
      agentName := "sub_agent_d" ++ toString (cfg.currentDepth + 1) ++ "_"
        ++ pyOrStr role "general" } with hspec
  refine ⟨spec, ?_, ?_, ?_⟩
  · cases hrc : runChild spec task with
    | ok p => simp [hrc]
    | error e => simp [hrc]
  · rw [hspec]
  · rw [hspec]
    exact min_le_right _ _

/-- Witness for C5 (amended): at depth 0 of 3 with `max_steps = 50`, the
child is created with `max_steps = min 50 30 = 30`. -/
theorem spawn_execute_effective_max_steps_witness :
    (0 : Nat) < 3 ∧
    ∃ spec, (spawnExecute
      { parentToolNames := [], workspaceDir := "ws", currentDepth := 0, maxDepth := 3 }
      (fun _ _ => Except.ok ("done", [])) "t" none none none (some 50)).2 = some spec
      ∧ spec.maxSteps =
          min (match (some (50 : Int)) with
               | some v => if v = 0 then (15 : Int) else v
               | none => 15) 30
      ∧ spec.maxSteps ≤ 30 :=
  ⟨by decide,
   spawn_execute_effective_max_steps
     { parentToolNames := [], workspaceDir := "ws", currentDepth := 0, maxDepth := 3 }
     (fun _ _ => Except.ok ("done", [])) "t" none none none (some 50) (by decide)⟩

/-- Claim C6: a successful tool output of length `L` at most
`tool_output_limit` is recorded unchanged; one with `L` above the limit is
recorded as exactly the first `tool_output_limit` characters followed by
the truncation suffix reporting the `L - tool_output_limit` omitted
characters — while both the `ToolResult` object and the `tool_result`
execution-log entry keep the full untruncated content. -/
theorem tool_output_truncation (limit : Nat) (content toolName : String)
    (tc : ToolCall) (r : ToolResult) :
    (content.length ≤ limit → truncateToolOutput limit content = content)
    ∧ (content.length > limit →
        truncateToolOutput limit content =
          content.take limit ++ "\n\n[... output truncated, "
            ++ toString (content.length - limit) ++ " more characters ...]")
    ∧ (r.success = true →
        (recordToolMessage limit tc r).content = truncateToolOutput limit r.content)
    ∧ (r.success = true →
        toolResultLogEntry toolName r = LogEntry.toolResult toolName true (some r.content) none) := by
  refine ⟨?_, ?_, ?_, ?_⟩
  · intro h
    simp [truncateToolOutput, h]
  · intro h
    simp [truncateToolOutput, Nat.not_le_of_lt h]
  · intro h
    simp [recordToolMessage, h]
  · intro h
    simp [toolResultLogEntry, h]

/-- Witness for C6: with `tool_output_limit = 5`, the 8-character output
`"abcdefgh"` is recorded as its first 5 characters plus a suffix reporting
3 omitted characters, and a short output is recorded unchanged. -/
theorem tool_output_truncation_witness :
    ("abcdefgh".length > 5 ∧
      truncateToolOutput 5 "abcdefgh" =
        "abcdefgh".take 5 ++ "\n\n[... output truncated, "
          ++ toString ("abcdefgh".length - 5) ++ " more characters ...]")
    ∧ ("abc".length ≤ 5 ∧ truncateToolOutput 5 "abc" = "abc") :=
  ⟨⟨by decide, (tool_output_truncation 5 "abcdefgh" "t"
      { id := "1", function := { name := "t", arguments := [] } }
      { success := true }).2.1 (by decide)⟩,
   ⟨by decide, (tool_output_truncation 5 "abc" "t"
      { id := "1", function := { name := "t", arguments := [] } }
      { success := true }).1 (by decide)⟩⟩

/-- Claim C7, settled against the faithful model of `_run_member` with its
session-persistence block: `delegate_task_to_member(member_id, task)` with
an unknown `member_id` returns the error string listing every available
member id and runs no member, as claimed.  With a known id the claimed
`"<Name> completed task:\n<response>"` / `"<Name> failed: <error>"`
returns, from a member Agent run with a `max_steps` budget of 10, are
produced exactly when the guard `session_id and self._current_run_id` of
`_run_member`'s session save is falsy; on the session-backed calls
`Team.run` always makes (it sets `run_context.session_id` to
`session_id or str(uuid4())` and `_current_run_id` to a fresh uuid, both
truthy), `_run_member` raises `NameError` at the unimported `RunRecord` and
the tool call propagates the exception instead of returning either
string. -/
theorem delegate_task_to_member_spec (members : List TeamMemberConfig)
    (runAgent : MemberAgentSpec → String → Except String (String × List LogEntry))
    (availableTools : List String) (enableSpawnAgent : Bool)
    (currentDepth spawnMaxDepth : Nat)
    (session_id current_run_id : Option String) (member_id task : String) :
    ((∀ m ∈ members, ¬ m.id = member_id) →
      delegateTaskToMember members runAgent availableTools enableSpawnAgent
          currentDepth spawnMaxDepth session_id current_run_id member_id task =
        Except.ok ("Error: Member with ID " ++ apos ++ member_id ++ apos
          ++ " not found in team. Available members: "
          ++ String.intercalate ", " (members.map (fun m => m.id)), []))
    ∧ (∀ mc, members.find? (fun m => m.id == member_id) = some mc →
        sessionGuardTruthy session_id current_run_id = false →
        ∃ result, runMember runAgent availableTools enableSpawnAgent
              currentDepth spawnMaxDepth session_id current_run_id mc task =
            Except.ok (result,
              [({ systemPrompt := memberSystemPrompt mc
                  toolNames := memberToolNames availableTools enableSpawnAgent
                    currentDepth spawnMaxDepth mc
                  maxSteps := 10 }, task)])
          ∧ delegateTaskToMember members runAgent availableTools enableSpawnAgent
                currentDepth spawnMaxDepth session_id current_run_id member_id task =
              Except.ok
                (if result.success then mc.name ++ " completed task:\n" ++ result.response
                 else mc.name ++ " failed: " ++ pyOptStr result.error,
                 [({ systemPrompt := memberSystemPrompt mc
                     toolNames := memberToolNames availableTools enableSpawnAgent
                       currentDepth spawnMaxDepth mc
                     maxSteps := 10 }, task)]))
    ∧ (∀ mc, members.find? (fun m => m.id == member_id) = some mc →
        sessionGuardTruthy session_id current_run_id = true →
        delegateTaskToMember members runAgent availableTools enableSpawnAgent
            currentDepth spawnMaxDepth session_id current_run_id member_id task =
          Except.error nameRunRecordError) := by
  refine ⟨?_, ?_, ?_⟩
  · intro hnone
    have hfind : members.find? (fun m => m.id == member_id) = none := by
      rw [List.find?_eq_none]
      intro m hm
      simpa using hnone m hm
    simp [delegateTaskToMember, hfind]
  · intro mc hfind hguard
    rcases hra : runAgent { systemPrompt := memberSystemPrompt mc, toolNames := memberToolNames availableTools enableSpawnAgent currentDepth spawnMaxDepth mc, maxSteps := 10 } task with e | ⟨resp, logs⟩
    · refine ⟨{ member_name := mc.name, member_role := mc.role, task := task, response := "", success := false, error := some e, steps := 0 }, ?_, ?_⟩
      · simp [runMember, hra, hguard]
      · simp [delegateTaskToMember, runMember, hfind, hra, hguard]
    · refine ⟨{ member_name := mc.name, member_role := mc.role, task := task, response := resp, success := !resp.isEmpty && !(logs.any fun l => isMaxStepsReachedEntry l) && !(!resp.isEmpty && resp.startsWith "LLM call failed"), error := none, steps := logs.countP (fun l => isStepEntry l) }, ?_, ?_⟩
      · simp [runMember, hra, hguard]
      · simp [delegateTaskToMember, runMember, hfind, hra, hguard]
  · intro mc hfind hguard
    rcases hra : runAgent { systemPrompt := memberSystemPrompt mc, toolNames := memberToolNames availableTools enableSpawnAgent currentDepth spawnMaxDepth mc, maxSteps := 10 } task with e | ⟨resp, logs⟩ <;>
      simp [delegateTaskToMember, runMember, hfind, hra, hguard]

/-- Witness for C7: in a two-member team, delegating to the unknown id
`"c"` returns the error string listing ids `a, b` and performs no member
run; with no session the delegation to `"a"` performs exactly one member
Agent run with `max_steps = 10` and returns the formatted string; with the
truthy session id and run id `Team.run` always supplies, the same
delegation propagates the `RunRecord` `NameError` instead. -/
theorem delegate_task_to_member_spec_witness :
    (delegateTaskToMember
        [{ id := "a", name := "Alice", role := "researcher" },
         { id := "b", name := "Bob", role := "writer" }]
        (fun _ _ => Except.ok ("done", [])) [] false 0 3 none none "c" "t" =
      Except.ok ("Error: Member with ID " ++ apos ++ "c" ++ apos
        ++ " not found in team. Available members: "
        ++ String.intercalate ", " ["a", "b"], []))
    ∧ (∃ result, runMember (fun _ _ => Except.ok ("done", [])) [] false 0 3 none none
          { id := "a", name := "Alice", role := "researcher" } "t" =
        Except.ok (result,
          [({ systemPrompt := memberSystemPrompt
                { id := "a", name := "Alice", role := "researcher" }
              toolNames := memberToolNames [] false 0 3
                { id := "a", name := "Alice", role := "researcher" }
              maxSteps := 10 }, "t")])
        ∧ delegateTaskToMember
            [{ id := "a", name := "Alice", role := "researcher" },
             { id := "b", name := "Bob", role := "writer" }]
            (fun _ _ => Except.ok ("done", [])) [] false 0 3 none none "a" "t" =
          Except.ok
            (if result.success then "Alice completed task:\n" ++ result.response
             else "Alice failed: " ++ pyOptStr result.error,
             [({ systemPrompt := memberSystemPrompt
                   { id := "a", name := "Alice", role := "researcher" }
                 toolNames := memberToolNames [] false 0 3
                   { id := "a", name := "Alice", role := "researcher" }
                 maxSteps := 10 }, "t")]))
    ∧ (delegateTaskToMember
        [{ id := "a", name := "Alice", role := "researcher" },
         { id := "b", name := "Bob", role := "writer" }]
        (fun _ _ => Except.ok ("done", [])) [] false 0 3
        (some "s1") (some "r1") "a" "t" = Except.error nameRunRecordError) := by
  refine ⟨?_, ?_, ?_⟩
  · exact (delegate_task_to_member_spec
      [{ id := "a", name := "Alice", role := "researcher" },
       { id := "b", name := "Bob", role := "writer" }]
      (fun _ _ => Except.ok ("done", [])) [] false 0 3 none none "c" "t").1 (by decide)
  · exact (delegate_task_to_member_spec
      [{ id := "a", name := "Alice", role := "researcher" },
       { id := "b", name := "Bob", role := "writer" }]
      (fun _ _ => Except.ok ("done", [])) [] false 0 3 none none "a" "t").2.1
      { id := "a", name := "Alice", role := "researcher" } (by decide) (by decide)
  · exact (delegate_task_to_member_spec
      [{ id := "a", name := "Alice", role := "researcher" },
       { id := "b", name := "Bob", role := "writer" }]
      (fun _ _ => Except.ok ("done", [])) [] false 0 3
      (some "s1") (some "r1") "a" "t").2.2
      { id := "a", name := "Alice", role := "researcher" } (by decide) (by decide)

/-- Claim C10: `add_run` (and `add_run_async`) on a session id absent from
the manager's sessions map returns normally, stores no run record, creates
no session, and leaves both the in-memory state and the storage file
content unchanged, for both the agent and the team session manager. -/
theorem add_run_unknown_session_noop (ast : AgentSessionManager)
    (tst : TeamSessionManager) (sid : String) (arun : AgentRunRecord)
    (trun : RunRecord) (now : Nat)
    (ha : ast.sessions.lookup sid = none)
    (ht : tst.sessions.lookup sid = none) :
    ast.addRun sid arun now = ast ∧ ast.addRunAsync sid arun now = ast
    ∧ tst.addRun sid trun now = tst ∧ tst.addRunAsync sid trun now = tst := by
  refine ⟨?_, ?_, ?_, ?_⟩ <;>
    simp [AgentSessionManager.addRun, AgentSessionManager.addRunAsync,
      TeamSessionManager.addRun, TeamSessionManager.addRunAsync, ha, ht]

/-- Witness for C10: a manager holding only session `"s1"` discards a
record added under the unknown id `"s2"`. -/
theorem add_run_unknown_session_noop_witness :
    (AgentSessionManager.addRun
      { sessions := [("s1",
          { session_id := "s1", agent_name := "a", user_id := none, runs := []
            state := [], created_at := 0, updated_at := 0 })] } "s2"
      { run_id := "r", task := "t", response := "x", success := true, steps := 1
        timestamp := 5 } 7) =
      { sessions := [("s1",
          { session_id := "s1", agent_name := "a", user_id := none, runs := []
            state := [], created_at := 0, updated_at := 0 })] } :=
  (add_run_unknown_session_noop
    { sessions := [("s1",
        { session_id := "s1", agent_name := "a", user_id := none, runs := []
          state := [], created_at := 0, updated_at := 0 })] }
    { sessions := [] } "s2"
    { run_id := "r", task := "t", response := "x", success := true, steps := 1
      timestamp := 5 }
    { run_id := "r", parent_run_id := none, runner_type := "member"
      runner_name := "m", task := "t", response := "x", success := true
      steps := 1, timestamp := 5 } 7 (by decide) (by decide)).1

/-- Every branch of `maybeSummarizeMessages` returns either the original
list or the compressed shape `messages[:1] ++ injected ++ messages[K:]`. -/
theorem maybeSummarize_shape (est : List Message → Nat) (tokenLimit R : Nat)
    (enable : Bool) (cm : String) (extractCore : List Message → Nat → String)
    (messages : List Message) :
    (maybeSummarizeMessages est tokenLimit R enable cm extractCore messages).2 = messages
    ∨ ∃ inj, (maybeSummarizeMessages est tokenLimit R enable cm extractCore messages).2 =
        messages.take 1 ++ inj ++ messages.drop ((userIndices messages).getLastD 0) := by
  unfold maybeSummarizeMessages
  dsimp only
  split
  · left; rfl
  · split
    · left; rfl
    · split
      · left; rfl
      · split
        · left; rfl
        · right; exact ⟨_, rfl⟩

/-- Claim C2: when index 0 of the history is the system prompt and some
user message follows it, the list returned by
`TokenManager.maybe_summarize_messages` still has that system prompt at
index 0 and ends with `messages[K:]` verbatim, `K` the index of the most
recent user message — neither the system prompt nor the final user turn is
removed or altered. -/
theorem token_manager_preserves_system_and_last_user (est : List Message → Nat)
    (tokenLimit R : Nat) (enable : Bool) (cm : String)
    (extractCore : List Message → Nat → String)
    (messages : List Message) (m0 : Message)
    (h0 : messages.head? = some m0) (hrole : m0.role = "system")
    (hu : userIndices messages ≠ []) :
    (maybeSummarizeMessages est tokenLimit R enable cm extractCore messages).2.head? = some m0
    ∧ List.IsSuffix (messages.drop ((userIndices messages).getLastD 0))
        (maybeSummarizeMessages est tokenLimit R enable cm extractCore messages).2 := by
  obtain ⟨tail, rfl⟩ : ∃ t, messages = m0 :: t := by
    cases messages with
    | nil => simp at h0
    | cons a t =>
      refine ⟨t, ?_⟩
      simp only [List.head?_cons, Option.some.injEq] at h0
      rw [h0]
  rcases maybeSummarize_shape est tokenLimit R enable cm extractCore (m0 :: tail) with h | ⟨inj, h⟩
  · rw [h]
    exact ⟨rfl, List.drop_suffix _ _⟩
  · rw [h]
    constructor
    · rfl
    · exact ⟨(m0 :: tail).take 1 ++ inj, rfl⟩

/-- Witness for C2: a four-message history (system, user, assistant, user)
above the round threshold keeps the system prompt at index 0 and the final
user message as its suffix. -/
theorem token_manager_preserves_system_and_last_user_witness :
    ((maybeSummarizeMessages (fun _ => 0) 10 0 true "" (fun _ _ => "MEM")
        [{ role := "system", content := "sys" }, { role := "user", content := "u1" },
         { role := "assistant", content := "a1" }, { role := "user", content := "u2" }]).2.head? =
      some { role := "system", content := "sys" })
    ∧ List.IsSuffix
        ([{ role := "system", content := "sys" }, { role := "user", content := "u1" },
          { role := "assistant", content := "a1" },
          { role := "user", content := "u2" }].drop
          ((userIndices
            [{ role := "system", content := "sys" }, { role := "user", content := "u1" },
             { role := "assistant", content := "a1" }, { role := "user", content := "u2" }]).getLastD 0))
        (maybeSummarizeMessages (fun _ => 0) 10 0 true "" (fun _ _ => "MEM")
          [{ role := "system", content := "sys" }, { role := "user", content := "u1" },
           { role := "assistant", content := "a1" }, { role := "user", content := "u2" }]).2 :=
  token_manager_preserves_system_and_last_user (fun _ => 0) 10 0 true "" (fun _ _ => "MEM")
    _ _ (by decide) (by decide) (by decide)

/-- The C3 counterexample history: a system prompt and one 30-character
user message — a single user turn whose estimated token count (12) exceeds
a `token_limit` of 10 while the round threshold (2) is not exceeded. -/
def c3Messages : List Message :=
  [{ role := "system", content := "s" },
   { role := "user", content := "aaaaaaaaaaaaaaaaaaaaaaaaaaaaaa" }]

/-- Counterexample to claim C3 as stated: with summarization enabled,
`summarize_after_rounds = 2` and `token_limit = 10`, a history of a system
prompt plus one 30-character user message estimates to 12 tokens — the
token threshold is exceeded — yet `maybe_summarize_messages` returns the
history unchanged (the single-round guard `num_rounds < 2` fires first),
with no injected core-memory exchange (no assistant message at all in the
result). -/
theorem token_manager_trigger_counterexample :
    estimateTokensFallback (fun _ => "") c3Messages > 10
    ∧ (maybeSummarizeMessages (estimateTokensFallback (fun _ => "")) 10 2 true ""
        (fun _ _ => "SUMMARY") c3Messages).2 = c3Messages
    ∧ ((maybeSummarizeMessages (estimateTokensFallback (fun _ => "")) 10 2 true ""
        (fun _ _ => "SUMMARY") c3Messages).2.filter (fun m => m.role == "assistant")) = [] := by
  refine ⟨by decide, by decide, by decide⟩

/-- Claim C3 (amended): with summarization enabled,
`maybe_summarize_messages` returns the history unchanged whenever the
number of user turns is at most `summarize_after_rounds` and the estimated
token count is at most `token_limit`; it likewise returns the history
unchanged when a threshold is exceeded but there are fewer than two user
turns, or the compression window `messages[1:K]` is empty.  When a
threshold is exceeded with at least two user turns and a nonempty window,
the result is always `messages[:1] ++ injected ++ messages[K:]`: the
updated core memory is the freshly extracted summary when nonempty and the
previously stored core memory otherwise, and `injected` is the core-memory
exchange built from that updated value when it is nonempty and empty
otherwise — so an empty extraction injects the stale stored memory, and an
empty extraction with no stored memory drops `messages[1:K]` with nothing
injected. -/
theorem token_manager_compression_trigger (est : List Message → Nat)
    (tokenLimit R : Nat) (cm : String)
    (extractCore : List Message → Nat → String) (messages : List Message) :
    ((userIndices messages).length ≤ R → est messages ≤ tokenLimit →
      maybeSummarizeMessages est tokenLimit R true cm extractCore messages = (cm, messages))
    ∧ (((userIndices messages).length > R ∨ est messages > tokenLimit) →
        (userIndices messages).length < 2 →
        maybeSummarizeMessages est tokenLimit R true cm extractCore messages = (cm, messages))
    ∧ (((userIndices messages).length > R ∨ est messages > tokenLimit) →
        (messages.take ((userIndices messages).getLastD 0)).drop 1 = [] →
        maybeSummarizeMessages est tokenLimit R true cm extractCore messages = (cm, messages))
    ∧ (((userIndices messages).length > R ∨ est messages > tokenLimit) →
        2 ≤ (userIndices messages).length →
        (messages.take ((userIndices messages).getLastD 0)).drop 1 ≠ [] →
        maybeSummarizeMessages est tokenLimit R true cm extractCore messages =
          (let extracted := extractCore
             ((messages.take ((userIndices messages).getLastD 0)).drop 1)
             ((userIndices messages).length - 1)
           let coreMemory2 := if extracted ≠ "" then extracted else cm
           (coreMemory2,
            messages.take 1
              ++ (if coreMemory2 ≠ "" then [coreMemoryMessage coreMemory2, ackMessage]
                  else [])
              ++ messages.drop ((userIndices messages).getLastD 0)))) := by
  have hneedOf : ∀ (hexceed : (userIndices messages).length > R ∨ est messages > tokenLimit),
      (decide ((userIndices messages).length > R)
        || decide (est messages > tokenLimit)) = true := by
    intro hexceed
    rcases hexceed with h | h
    · simp [h]
    · simp [h]
  refine ⟨?_, ?_, ?_, ?_⟩
  · intro h1 h2
    unfold maybeSummarizeMessages
    have hr : ¬ (userIndices messages).length > R := by omega
    have ht : ¬ est messages > tokenLimit := by omega
    simp [hr, ht]
  · intro hexceed hlt
    unfold maybeSummarizeMessages
    simp only [Bool.not_true, hneedOf hexceed]
    rw [if_neg (by simp), if_neg (by simp), if_pos hlt]
  · intro hexceed hwin
    unfold maybeSummarizeMessages
    simp only [Bool.not_true, hneedOf hexceed]
    by_cases hlt : (userIndices messages).length < 2
    · rw [if_neg (by simp), if_neg (by simp), if_pos hlt]
    · rw [if_neg (by simp), if_neg (by simp), if_neg hlt,
        if_pos (by simpa using hwin)]
  · intro hexceed h2 hwin
    unfold maybeSummarizeMessages
    have hlt : ¬ (userIndices messages).length < 2 := by omega
    simp only [Bool.not_true, hneedOf hexceed, hlt]
    rw [if_neg (by simp), if_neg (by simp), if_neg (by exact fun h => h),
      if_neg (by simpa using hwin)]

/-- Witness for C3 (amended): three user turns with `R = 2` and a nonempty
extraction compress into system prompt, injected memory exchange, and the
final user turn; with an empty extraction and no stored memory the same
history compresses to system prompt plus final user turn with nothing
injected; with an empty extraction and the stored memory `"OLD"` the stale
memory is injected; a two-turn history under both thresholds is returned
unchanged. -/
theorem token_manager_compression_trigger_witness :
    (maybeSummarizeMessages (fun _ => 0) 100 2 true "" (fun _ _ => "MEM")
        [{ role := "system", content := "sys" }, { role := "user", content := "u1" },
         { role := "assistant", content := "a1" }, { role := "user", content := "u2" },
         { role := "assistant", content := "a2" }, { role := "user", content := "u3" }] =
      ("MEM",
       [{ role := "system", content := "sys" }, coreMemoryMessage "MEM", ackMessage,
        { role := "user", content := "u3" }]))
    ∧ (maybeSummarizeMessages (fun _ => 0) 100 2 true "" (fun _ _ => "")
        [{ role := "system", content := "sys" }, { role := "user", content := "u1" },
         { role := "assistant", content := "a1" }, { role := "user", content := "u2" },
         { role := "assistant", content := "a2" }, { role := "user", content := "u3" }] =
      ("", [{ role := "system", content := "sys" }, { role := "user", content := "u3" }]))
    ∧ (maybeSummarizeMessages (fun _ => 0) 100 2 true "OLD" (fun _ _ => "")
        [{ role := "system", content := "sys" }, { role := "user", content := "u1" },
         { role := "assistant", content := "a1" }, { role := "user", content := "u2" },
         { role := "assistant", content := "a2" }, { role := "user", content := "u3" }] =
      ("OLD",
       [{ role := "system", content := "sys" }, coreMemoryMessage "OLD", ackMessage,
        { role := "user", content := "u3" }]))
    ∧ (maybeSummarizeMessages (fun _ => 0) 100 2 true "" (fun _ _ => "MEM")
        [{ role := "system", content := "sys" }, { role := "user", content := "u1" },
         { role := "assistant", content := "a1" }, { role := "user", content := "u2" }] =
      ("", [{ role := "system", content := "sys" }, { role := "user", content := "u1" },
            { role := "assistant", content := "a1" }, { role := "user", content := "u2" }])) := by
  refine ⟨?_, ?_, ?_, ?_⟩
  · have h := (token_manager_compression_trigger (fun _ => 0) 100 2 ""
      (fun _ _ => "MEM")
      [{ role := "system", content := "sys" }, { role := "user", content := "u1" },
       { role := "assistant", content := "a1" }, { role := "user", content := "u2" },
       { role := "assistant", content := "a2" }, { role := "user", content := "u3" }]).2.2.2
      (by left; decide) (by decide) (by decide)
    rw [h]
    decide
  · have h := (token_manager_compression_trigger (fun _ => 0) 100 2 ""
      (fun _ _ => "")
      [{ role := "system", content := "sys" }, { role := "user", content := "u1" },
       { role := "assistant", content := "a1" }, { role := "user", content := "u2" },
       { role := "assistant", content := "a2" }, { role := "user", content := "u3" }]).2.2.2
      (by left; decide) (by decide) (by decide)
    rw [h]
    decide
  · have h := (token_manager_compression_trigger (fun _ => 0) 100 2 "OLD"
      (fun _ _ => "")
      [{ role := "system", content := "sys" }, { role := "user", content := "u1" },
       { role := "assistant", content := "a1" }, { role := "user", content := "u2" },
       { role := "assistant", content := "a2" }, { role := "user", content := "u3" }]).2.2.2
      (by left; decide) (by decide) (by decide)
    rw [h]
    decide
  · exact (token_manager_compression_trigger (fun _ => 0) 100 2 ""
      (fun _ _ => "MEM")
      [{ role := "system", content := "sys" }, { role := "user", content := "u1" },
       { role := "assistant", content := "a1" }, { role := "user", content := "u2" }]).1
      (by decide) (by decide)

/-- Executing a list of tool calls appends exactly one `tool_call` and one
`tool_result` log entry per call and no `llm_response`, `step`, or
completion entries, and appends no logger completion events. -/
theorem runToolCalls_counts (cfg : AgentConfig) (st : AgentState) (tcs : List ToolCall) :
    (runToolCalls cfg st tcs).logs.countP (fun l => isLlmResponseEntry l)
        = st.logs.countP (fun l => isLlmResponseEntry l)
    ∧ (runToolCalls cfg st tcs).logs.countP (fun l => isStepEntry l)
        = st.logs.countP (fun l => isStepEntry l)
    ∧ (runToolCalls cfg st tcs).logs.countP (fun l => isToolResultEntry l)
        = st.logs.countP (fun l => isToolResultEntry l) + tcs.length := by
  induction tcs generalizing st with
  | nil => simp [runToolCalls]
  | cons tc rest ih =>
    simp only [runToolCalls]
    refine ⟨?_, ?_, ?_⟩
    · rw [(ih _).1]
      simp [List.countP_append, isLlmResponseEntry, toolResultLogEntry]
    · rw [(ih _).2.1]
      simp [List.countP_append, isStepEntry, toolResultLogEntry]
    · rw [(ih _).2.2]
      simp [List.countP_append, isToolResultEntry, toolResultLogEntry]
      omega

/-- Main induction for claim C1: when every LLM response carries at least
one tool call, the loop burns its whole fuel, makes one LLM call and at
least one tool execution per remaining step, and ends in the
`max_steps_reached` completion with the canonical timeout string. -/
theorem runLoop_always_tools (cfg : AgentConfig)
    (llm : List Message → Except String LLMResponse)
    (est : List Message → Nat) (extractCore : List Message → Nat → String)
    (hlog : cfg.enableLogging = true)
    (htools : ∀ msgs, ∃ r tcs, llm msgs = Except.ok r ∧ r.tool_calls = some tcs ∧ tcs ≠ []) :
    ∀ fuel step st,
      (runLoop cfg llm est extractCore fuel step st).final = timeoutMessage cfg.maxSteps
      ∧ (runLoop cfg llm est extractCore fuel step st).logs.countP (fun l => isLlmResponseEntry l)
          = st.logs.countP (fun l => isLlmResponseEntry l) + fuel
      ∧ (runLoop cfg llm est extractCore fuel step st).logs.countP (fun l => isStepEntry l)
          = st.logs.countP (fun l => isStepEntry l) + fuel
      ∧ st.logs.countP (fun l => isToolResultEntry l) + fuel
          ≤ (runLoop cfg llm est extractCore fuel step st).logs.countP (fun l => isToolResultEntry l)
      ∧ ∃ pre, (runLoop cfg llm est extractCore fuel step st).loggerEvents =
          pre ++ [LogEvent.logCompletion (timeoutMessage cfg.maxSteps) cfg.maxSteps "max_steps_reached"] := by
  intro fuel
  induction fuel with
  | zero =>
    intro step st
    refine ⟨rfl, ?_, ?_, ?_, ⟨st.loggerEvents, ?_⟩⟩
    · simp [runLoop, List.countP_append, isLlmResponseEntry]
    · simp [runLoop, List.countP_append, isStepEntry]
    · simp [runLoop, List.countP_append, isToolResultEntry]
    · simp [runLoop, pushLogger, hlog]
  | succ fuel ih =>
    intro step st
    obtain ⟨r, tcs, hllm, htc, hne⟩ := htools
      (maybeSummarizeMessages est cfg.tokenLimit cfg.summarizeAfterRounds
        cfg.enableSummarization st.coreMemory extractCore st.messages).2
    have htruthy : toolCallsTruthy (some tcs) = true := by
      simpa [toolCallsTruthy] using hne
    have hlen : 0 < tcs.length := List.length_pos.mpr hne
    rw [show (fuel + 1) = fuel.succ from rfl]
    simp only [runLoop]
    rw [hllm]
    simp only [htc, htruthy, Bool.not_true, Bool.false_eq_true, if_false, Option.getD_some]
    refine ⟨(ih _ _).1, ?_, ?_, ?_, ?_⟩
    · rw [(ih _ _).2.1, (runToolCalls_counts cfg _ tcs).1]
      simp [List.countP_append, isLlmResponseEntry]
      omega
    · rw [(ih _ _).2.2.1, (runToolCalls_counts cfg _ tcs).2.1]
      simp [List.countP_append, isStepEntry, isLlmResponseEntry]
      omega
    · refine le_trans ?_ ((ih _ _).2.2.2.1)
      rw [(runToolCalls_counts cfg _ tcs).2.2]
      simp [List.countP_append, isToolResultEntry]
      omega
    · exact (ih _ _).2.2.2.2

/-- Claim C1: for every Agent with `max_steps ≥ 1` whose LLM client
returns, at every step, a response containing at least one tool call,
`Agent.run()` makes exactly `max_steps` LLM calls (one `llm_response` log
entry per loop call), executes at least one tool per step (so at least
`max_steps` `tool_result` entries follow), logs a completion with reason
`max_steps_reached`, and returns the canonical timeout string
`"Task couldn't be completed after {max_steps} steps."`. -/
theorem agent_run_max_steps (cfg : AgentConfig)
    (llm : List Message → Except String LLMResponse)
    (est : List Message → Nat) (extractCore : List Message → Nat → String)
    (messages : List Message) (coreMemory : String)
    (hsteps : 1 ≤ cfg.maxSteps) (hlog : cfg.enableLogging = true)
    (htools : ∀ msgs, ∃ r tcs, llm msgs = Except.ok r ∧ r.tool_calls = some tcs ∧ tcs ≠ []) :
    (agentRun cfg llm est extractCore messages coreMemory).final = timeoutMessage cfg.maxSteps
    ∧ (agentRun cfg llm est extractCore messages coreMemory).logs.countP
        (fun l => isLlmResponseEntry l) = cfg.maxSteps
    ∧ (agentRun cfg llm est extractCore messages coreMemory).logs.countP
        (fun l => isStepEntry l) = cfg.maxSteps
    ∧ cfg.maxSteps ≤ (agentRun cfg llm est extractCore messages coreMemory).logs.countP
        (fun l => isToolResultEntry l)
    ∧ ∃ pre, (agentRun cfg llm est extractCore messages coreMemory).loggerEvents =
        pre ++ [LogEvent.logCompletion (timeoutMessage cfg.maxSteps) cfg.maxSteps
          "max_steps_reached"] := by
  have h := runLoop_always_tools cfg llm est extractCore hlog htools cfg.maxSteps 0
    { messages := messages, coreMemory := coreMemory, logs := []
      loggerEvents := pushLogger cfg [] [LogEvent.startRun]
      totalInput := 0, totalOutput := 0 }
  refine ⟨h.1, ?_, ?_, ?_, h.2.2.2.2⟩
  · have := h.2.1
    simpa [agentRun] using this
  · have := h.2.2.1
    simpa [agentRun] using this
  · have := h.2.2.2.1
    simpa [agentRun] using this

/-- Witness for C1: an agent with `max_steps = 2`, an empty tool registry,
and an LLM that always emits one tool call makes exactly two LLM calls,
records at least two tool results, and returns the canonical timeout
string. -/
theorem agent_run_max_steps_witness :
    (agentRun { maxSteps := 2, tools := [] }
        (fun _ => Except.ok { content := "c", tool_calls := some [{ id := "1", function := { name := "t", arguments := [] } }] })
        (fun _ => 0) (fun _ _ => "") [{ role := "user", content := "hi" }] "").final =
      timeoutMessage 2
    ∧ (agentRun { maxSteps := 2, tools := [] }
        (fun _ => Except.ok { content := "c", tool_calls := some [{ id := "1", function := { name := "t", arguments := [] } }] })
        (fun _ => 0) (fun _ _ => "") [{ role := "user", content := "hi" }] "").logs.countP
        (fun l => isLlmResponseEntry l) = 2 := by
  have h := agent_run_max_steps { maxSteps := 2, tools := [] }
    (fun _ => Except.ok { content := "c", tool_calls := some [{ id := "1", function := { name := "t", arguments := [] } }] })
    (fun _ => 0) (fun _ _ => "") [{ role := "user", content := "hi" }] ""
    (by decide) rfl
    (fun msgs => ⟨_, [{ id := "1", function := { name := "t", arguments := [] } }],
      rfl, rfl, by decide⟩)
  exact ⟨h.1, h.2.1⟩

/-! ## Lemmas for the dependency-resolution claims -/

/-- Counting a disjunction of disjoint predicates splits into a sum. -/
theorem countP_or_disjoint {α : Type} (l : List α) (p q : α → Bool)
    (h : ∀ a ∈ l, ¬(p a = true ∧ q a = true)) :
    l.countP (fun a => p a || q a) = l.countP p + l.countP q := by
  induction l with
  | nil => simp
  | cons x xs ih =>
    have hx := h x (by simp)
    have ihx := ih (fun a ha => h a (by simp [ha]))
    by_cases hp : p x = true
    · have hq : q x = false := by
        cases hqv : q x with
        | false => rfl
        | true => exact absurd ⟨hp, hqv⟩ hx
      simp [List.countP_cons, hp, hq, ihx]
      omega
    · have hp' : p x = false := by simpa using hp
      cases hqv : q x with
      | false => simp [List.countP_cons, hp', hqv, ihx]
      | true =>
        simp [List.countP_cons, hp', hqv, ihx]
        omega

/-- `List.contains` is decidable membership (for `String`). -/
theorem contains_eq_mem (l : List String) (a : String) : l.contains a = decide (a ∈ l) :=
  List.elem_eq_mem a l

/-- On a duplicate-free list, counting occurrences of `x` (by `==`) yields
1 or 0 according to membership. -/
theorem countP_beq_nodup (ys : List String) (x : String) (hy : ys.Nodup) :
    ys.countP (fun a => a == x) = if x ∈ ys then 1 else 0 := by
  induction ys with
  | nil => simp
  | cons y ys ih =>
    have hymem : y ∉ ys := (List.nodup_cons.mp hy).1
    have hys : ys.Nodup := (List.nodup_cons.mp hy).2
    by_cases hxy : y = x
    · subst hxy
      have h0 : ys.countP (fun a => a == y) = 0 := by
        rw [List.countP_eq_zero]
        intro a ha
        simp only [beq_iff_eq]
        exact fun heq => hymem (heq ▸ ha)
      simp [List.countP_cons, h0]
    · have hxyne : ¬ x = y := fun h => hxy h.symm
      simp [List.countP_cons, hxy, ih hys, List.mem_cons, hxyne]

/-- For duplicate-free lists, counting members of `ys` inside `xs` equals
counting members of `xs` inside `ys` (both count the intersection). -/
theorem countP_contains_comm (xs ys : List String) (hx : xs.Nodup) (hy : ys.Nodup) :
    xs.countP (fun a => ys.contains a) = ys.countP (fun a => xs.contains a) := by
  induction xs with
  | nil => simp
  | cons x xs ih =>
    have hxmem : x ∉ xs := (List.nodup_cons.mp hx).1
    have hxs : xs.Nodup := (List.nodup_cons.mp hx).2
    have hsplit : ys.countP (fun a => (x :: xs).contains a)
        = ys.countP (fun a => a == x) + ys.countP (fun a => xs.contains a) := by
      have hcong : ys.countP (fun a => (x :: xs).contains a)
          = ys.countP (fun a => (a == x) || xs.contains a) := by
        apply List.countP_congr
        intro a _
        simp [List.contains_cons]
      rw [hcong]
      apply countP_or_disjoint
      intro a _ h
      obtain ⟨h1, h2⟩ := h
      have hax : a = x := by simpa using h1
      subst hax
      rw [contains_eq_mem] at h2
      exact hxmem (by simpa using h2)
    rw [hsplit, countP_beq_nodup ys x hy, ← ih hxs]
    have hcons : (x :: xs).countP (fun a => ys.contains a)
        = xs.countP (fun a => ys.contains a) + if ys.contains x then 1 else 0 :=
      List.countP_cons _ _ _
    rw [hcons, contains_eq_mem]
    by_cases hm : x ∈ ys <;> simp [hm] <;> omega

/-- Looking a task up by its own id in a list with duplicate-free ids
finds that task. -/
theorem find?_id_self (tasks : List TaskW)
    (hids : (tasks.map (fun t => t.id)).Nodup) (t : TaskW) (ht : t ∈ tasks) :
    tasks.find? (fun u => u.id == t.id) = some t := by
  induction tasks with
  | nil => cases ht
  | cons u rest ih =>
    have hids2 : (u.id :: rest.map (fun t => t.id)).Nodup := by simpa using hids
    have hunotin : u.id ∉ rest.map (fun t => t.id) := (List.nodup_cons.mp hids2).1
    have hrest : (rest.map (fun t => t.id)).Nodup := (List.nodup_cons.mp hids2).2
    rcases List.mem_cons.mp ht with rfl | hmem
    · simp [List.find?_cons]
    · by_cases heq : u.id = t.id
      · exact absurd (heq ▸ List.mem_map.mpr ⟨t, hmem, rfl⟩) hunotin
      · have hne : (u.id == t.id) = false := by simpa using heq
        rw [List.find?_cons, hne]
        exact ih hrest hmem

/-- `task_map` lookup of a task's own id yields its dependency list. -/
theorem depsOf_eq (tasks : List TaskW)
    (hids : (tasks.map (fun t => t.id)).Nodup) (t : TaskW) (ht : t ∈ tasks) :
    depsOf tasks t.id = t.depends_on := by
  unfold depsOf
  rw [find?_id_self tasks hids t ht]

/-- Soundness of the layering loop: on success, the produced layers are a
permutation of the remaining tasks, and whenever task `a`'s id appears in
task `b`'s `depends_on`, `a`'s layer index is strictly below `b`'s. -/
theorem resolveLoop_sound (tasks : List TaskW)
    (hids : (tasks.map (fun t => t.id)).Nodup)
    (hdeps : ∀ t ∈ tasks, t.depends_on.Nodup) :
    ∀ (n : Nat) (remaining : List TaskW) (deg : String → Nat) (ls : List (List TaskW)),
      remaining.length = n →
      remaining.Sublist tasks →
      (∀ t ∈ remaining, deg t.id = t.depends_on.countP
        (fun d => (remaining.map (fun t => t.id)).contains d)) →
      resolveLoop tasks remaining deg = Except.ok ls →
      List.Perm ls.flatten remaining
      ∧ (∀ i j lI lJ a b, ls.get? i = some lI → ls.get? j = some lJ →
          a ∈ lI → b ∈ lJ → a.id ∈ b.depends_on → i < j) := by
  intro n
  induction n using Nat.strong_induction_on with
  | _ n ihn =>
    intro remaining deg ls hlen hsub hinv hres
    unfold resolveLoop at hres
    split at hres
    · -- remaining is empty
      rename_i hre
      obtain rfl : ([] : List (List TaskW)) = ls := by
        simpa using hres
      have hremnil : remaining = [] := List.isEmpty_iff.mp hre
      subst hremnil
      refine ⟨by simp, ?_⟩
      intro i j lI lJ a b hgi _ _ _ _
      simp at hgi
    · -- remaining is nonempty
      rename_i hre
      simp only [] at hres
      split at hres
      · exact absurd hres (by simp)
      · rename_i hlayer
        set layer := remaining.filter (fun t => deg t.id == 0) with hlayerdef
        set rest := remaining.filter (fun t => !(deg t.id == 0)) with hrestdef
        set deg2 := fun i => deg i - layer.countP (fun u => (depsOf tasks i).contains u.id)
          with hdeg2def
        cases hres2 : resolveLoop tasks rest deg2 with
        | error e => rw [hres2] at hres; exact absurd hres (by simp)
        | ok ls' =>
          rw [hres2] at hres
          obtain rfl : layer :: ls' = ls := by simpa using hres
          -- structural facts
          have hLayerSub : layer.Sublist remaining := List.filter_sublist _
          have hRestSub : rest.Sublist remaining := List.filter_sublist _
          have hPerm0 : List.Perm (layer ++ rest) remaining :=
            List.filter_append_perm _ remaining
          have hRemIds : (remaining.map (fun t => t.id)).Nodup :=
            (hids.sublist (hsub.map (fun t => t.id)))
          have hPermIds : List.Perm (layer.map (fun t => t.id) ++ rest.map (fun t => t.id))
              (remaining.map (fun t => t.id)) := by
            have := hPerm0.map (fun t => t.id)
            simpa using this
          have hAppNodup : (layer.map (fun t => t.id) ++ rest.map (fun t => t.id)).Nodup :=
            (hPermIds.nodup_iff).mpr hRemIds
          obtain ⟨hLayerIdsNodup, hRestIdsNodup, hDisj⟩ := List.nodup_append.mp hAppNodup
          have hmemiff : ∀ d, (d ∈ remaining.map (fun t => t.id)) ↔
              (d ∈ layer.map (fun t => t.id) ∨ d ∈ rest.map (fun t => t.id)) := by
            intro d
            rw [← hPermIds.mem_iff]
            simp [List.mem_append]
          -- invariant for the recursive call
          have hinv2 : ∀ t ∈ rest, deg2 t.id = t.depends_on.countP
              (fun d => (rest.map (fun t => t.id)).contains d) := by
            intro t htr
            have htrem : t ∈ remaining := hRestSub.subset htr
            have httasks : t ∈ tasks := hsub.subset htrem
            have hdepnodup : t.depends_on.Nodup := hdeps t httasks
            have hstep1 : t.depends_on.countP
                (fun d => (remaining.map (fun t => t.id)).contains d)
                = t.depends_on.countP (fun d => (layer.map (fun t => t.id)).contains d)
                  + t.depends_on.countP (fun d => (rest.map (fun t => t.id)).contains d) := by
              rw [show t.depends_on.countP
                  (fun d => (remaining.map (fun t => t.id)).contains d)
                  = t.depends_on.countP (fun d =>
                      (layer.map (fun t => t.id)).contains d
                      || (rest.map (fun t => t.id)).contains d) from
                List.countP_congr (fun d _ => by
                  rw [contains_eq_mem, contains_eq_mem, contains_eq_mem]
                  simp [hmemiff d])]
              apply countP_or_disjoint
              intro d _ hcontr
              obtain ⟨hc1, hc2⟩ := hcontr
              rw [contains_eq_mem] at hc1 hc2
              exact hDisj (by simpa using hc1) (by simpa using hc2)
            have hstep2 : layer.countP (fun u => (depsOf tasks t.id).contains u.id)
                = t.depends_on.countP (fun d => (layer.map (fun t => t.id)).contains d) := by
              rw [depsOf_eq tasks hids t httasks]
              have hmap : (layer.map (fun t => t.id)).countP (fun i => t.depends_on.contains i)
                  = layer.countP (fun u => t.depends_on.contains u.id) := by
                rw [List.countP_map]
                rfl
              rw [← hmap]
              exact countP_contains_comm _ _ hLayerIdsNodup hdepnodup
            rw [hdeg2def]
            simp only
            rw [depsOf_eq tasks hids t httasks] at hstep2 ⊢
            rw [hinv t htrem, hstep1, hstep2]
            omega
          -- recursive call
          have hlt : rest.length < n := by
            rw [← hlen]
            exact length_filter_not_lt remaining _ hlayer
          obtain ⟨ihPerm, ihOrd⟩ := ihn rest.length hlt rest deg2 ls' rfl
            (hRestSub.trans hsub) hinv2 hres2
          have hflatperm : List.Perm (layer :: ls').flatten remaining := by
            have h1 : (layer :: ls').flatten = layer ++ ls'.flatten := by simp
            rw [h1]
            exact (ihPerm.append_left layer).trans hPerm0
          constructor
          · exact hflatperm
          · -- topological ordering
            intro i j lI lJ a b hgi hgj ha hb hdep
            have hflat : ∀ k lK c, (layer :: ls').get? k = some lK → c ∈ lK →
                c ∈ remaining := by
              intro k lK c hgk hc
              have hlk : lK ∈ layer :: ls' := List.get?_mem hgk
              have : c ∈ (layer :: ls').flatten := List.mem_flatten.mpr ⟨lK, hlk, hc⟩
              exact hflatperm.mem_iff.mp this
            cases j with
            | zero =>
              -- b is in the first layer: its in-degree is 0, so no dependency
              -- of b is still in `remaining`; but a ∈ remaining — contradiction.
              exfalso
              have hlJ : layer = lJ := by simpa using hgj
              subst hlJ
              have hbfilter := List.mem_filter.mp hb
              have hdeg0 : deg b.id = 0 := by simpa using hbfilter.2
              have hbrem : b ∈ remaining := hbfilter.1
              have hcount0 : b.depends_on.countP
                  (fun d => (remaining.map (fun t => t.id)).contains d) = 0 := by
                rw [← hinv b hbrem, hdeg0]
              have hnotin := List.countP_eq_zero.mp hcount0 a.id hdep
              have harem : a ∈ remaining := hflat i lI a hgi ha
              apply hnotin
              rw [contains_eq_mem]
              simpa using List.mem_map.mpr ⟨a, harem, rfl⟩
            | succ j' =>
              cases i with
              | zero => omega
              | succ i' =>
                have hgi' : ls'.get? i' = some lI := by simpa using hgi
                have hgj' : ls'.get? j' = some lJ := by simpa using hgj
                have := ihOrd i' j' lI lJ a b hgi' hgj' ha hb hdep
                omega

/-- Whether an `Except` value is a success. -/
def exceptIsOk {ε α : Type} : Except ε α → Bool
  | .ok _ => true
  | .error _ => false

/-- On success, `_resolve_dependencies` layers are a permutation of the
input tasks and are topologically ordered. -/
theorem resolveDependencies_ok_sound (tasks : List TaskW)
    (hids : (tasks.map (fun t => t.id)).Nodup)
    (hdeps : ∀ t ∈ tasks, t.depends_on.Nodup) (layers : List (List TaskW))
    (h : resolveDependencies tasks = Except.ok layers) :
    List.Perm layers.flatten tasks
    ∧ (∀ i j lI lJ a b, layers.get? i = some lI → layers.get? j = some lJ →
        a ∈ lI → b ∈ lJ → a.id ∈ b.depends_on → i < j) := by
  unfold resolveDependencies at h
  simp only [] at h
  split at h
  · exact absurd h (by simp)
  · rename_i hfind
    have hinv0 : ∀ t ∈ tasks, (fun i => (depsOf tasks i).length) t.id
        = (t.depends_on).countP
            (fun d => (tasks.map (fun t => t.id)).contains d) := by
      intro t ht
      simp only
      rw [depsOf_eq tasks hids t ht]
      symm
      rw [List.countP_eq_length]
      intro d hd
      have hnone := List.find?_eq_none.mp hfind t ht
      simp only [List.any_eq_true, not_exists, not_and, Bool.not_eq_true'] at hnone
      have := hnone d hd
      simpa using this
    exact resolveLoop_sound tasks hids hdeps tasks.length tasks _ layers rfl
      (List.Sublist.refl _) hinv0 h

/-- Claim C9: `_resolve_dependencies` produces a valid topological
layering — every task appears in a layer, and if `B` lists `A` in
`depends_on` then `A`'s layer index is strictly smaller than `B`'s — and
for every task list with a dangling dependency or a circular dependency it
raises a `ValueError` (no `ok` result), in which case
`run_with_dependencies` sets no task `running` and executes no member —
whatever the session id, since the `ValueError` is raised before the layer
loop, and any response it still returns (it returns one exactly when the
session id is falsy) reports failure with the tasks untouched. -/
theorem team_resolve_dependencies_spec (tasks : List TaskW)
    (hids : (tasks.map (fun t => t.id)).Nodup)
    (hdeps : ∀ t ∈ tasks, t.depends_on.Nodup) :
    (∀ layers, resolveDependencies tasks = Except.ok layers →
      (∀ t ∈ tasks, ∃ i lI, layers.get? i = some lI ∧ t ∈ lI)
      ∧ (∀ i j lI lJ a b, layers.get? i = some lI → layers.get? j = some lJ →
          a ∈ lI → b ∈ lJ → a.id ∈ b.depends_on → i < j))
    ∧ ((∃ t ∈ tasks, ∃ d ∈ t.depends_on, d ∉ tasks.map (fun t => t.id)) →
        exceptIsOk (resolveDependencies tasks) = false)
    ∧ ((∃ S : List TaskW, S ≠ [] ∧ (∀ t ∈ S, t ∈ tasks)
          ∧ (∀ t ∈ S, ∃ d ∈ t.depends_on, ∃ u ∈ S, u.id = d)) →
        exceptIsOk (resolveDependencies tasks) = false)
    ∧ (∀ members (oracle : TeamMemberConfig → String → Except String MemberRunResult)
          (session_id : Option String), exceptIsOk (resolveDependencies tasks) = false →
        (runWithDependencies members oracle session_id tasks).2 = []
        ∧ (∀ resp, (runWithDependencies members oracle session_id tasks).1 = Except.ok resp →
            resp.executed = [] ∧ resp.success = false ∧ resp.tasks = tasks)) := by
  have hcover : ∀ layers, resolveDependencies tasks = Except.ok layers →
      (∀ t ∈ tasks, ∃ i lI, layers.get? i = some lI ∧ t ∈ lI)
      ∧ (∀ i j lI lJ a b, layers.get? i = some lI → layers.get? j = some lJ →
          a ∈ lI → b ∈ lJ → a.id ∈ b.depends_on → i < j) := by
    intro layers h
    obtain ⟨hperm, hord⟩ := resolveDependencies_ok_sound tasks hids hdeps layers h
    refine ⟨?_, hord⟩
    intro t ht
    have : t ∈ layers.flatten := hperm.mem_iff.mpr ht
    obtain ⟨lI, hlI, htl⟩ := List.mem_flatten.mp this
    obtain ⟨i, hi⟩ := List.get?_of_mem hlI
    exact ⟨i, lI, hi, htl⟩
  refine ⟨hcover, ?_, ?_, ?_⟩
  · -- dangling dependency
    rintro ⟨t, ht, d, hd, hnot⟩
    unfold resolveDependencies
    simp only []
    split
    · rfl
    · rename_i hfind
      exfalso
      have := List.find?_eq_none.mp hfind t ht
      simp only [List.any_eq_true, not_exists, not_and, Bool.not_eq_true'] at this
      have hcd := this d hd
      rw [contains_eq_mem] at hcd
      simp [hnot] at hcd
  · -- circular dependency
    rintro ⟨S, hSne, hSsub, hScyc⟩
    cases hres : resolveDependencies tasks with
    | error e => rfl
    | ok layers =>
      exfalso
      obtain ⟨hcov, hord⟩ := hcover layers hres
      classical
      let I : Set Nat := {i | ∃ lI, layers.get? i = some lI ∧ ∃ t ∈ S, t ∈ lI}
      have hIne : I.Nonempty := by
        obtain ⟨t0, ht0⟩ := List.exists_mem_of_ne_nil S hSne
        obtain ⟨i, lI, hi, htl⟩ := hcov t0 (hSsub t0 ht0)
        exact ⟨i, lI, hi, t0, ht0, htl⟩
      have hmem := Nat.sInf_mem hIne
      obtain ⟨lI, hlI, t0, ht0S, ht0l⟩ := hmem
      obtain ⟨d, hd, u, huS, huid⟩ := hScyc t0 ht0S
      obtain ⟨j, lJ, hj, hul⟩ := hcov u (hSsub u huS)
      have hlt : j < sInf I := by
        apply hord j (sInf I) lJ lI u t0 hj hlI hul ht0l
        rw [huid]
        exact hd
      have hge : sInf I ≤ j := Nat.sInf_le ⟨lJ, hj, u, huS, hul⟩
      omega
  · -- a resolution error prevents any execution
    intro members oracle session_id hko
    unfold runWithDependencies
    cases hres : resolveDependencies tasks with
    | error e =>
      refine ⟨rfl, ?_⟩
      intro resp hresp
      simp only [] at hresp
      cases hos : optStrTruthy session_id with
      | true => rw [hos] at hresp; simp at hresp
      | false =>
        rw [hos] at hresp
        simp only [Bool.false_eq_true, if_false, Except.ok.injEq] at hresp
        rw [← hresp]
        exact ⟨rfl, rfl, rfl⟩
    | ok layers => rw [hres] at hko; exact absurd hko (by simp [exceptIsOk])

/-- The diamond DAG `t1 ← {t2, t3} ← t4` used to witness C9 and C8. -/
def c9Tasks : List TaskW :=
  [{ id := "t1", task := "a", assigned_to := "r" },
   { id := "t2", task := "b", assigned_to := "r", depends_on := ["t1"] },
   { id := "t3", task := "c", assigned_to := "r", depends_on := ["t1"] },
   { id := "t4", task := "d", assigned_to := "r", depends_on := ["t2", "t3"] }]

/-- The layers `_resolve_dependencies` produces for `c9Tasks`. -/
def c9Layers : List (List TaskW) :=
  [[{ id := "t1", task := "a", assigned_to := "r" }],
   [{ id := "t2", task := "b", assigned_to := "r", depends_on := ["t1"] },
    { id := "t3", task := "c", assigned_to := "r", depends_on := ["t1"] }],
   [{ id := "t4", task := "d", assigned_to := "r", depends_on := ["t2", "t3"] }]]

/-- Evaluation of the layering on the diamond DAG:
`[[t1], [t2, t3], [t4]]`. -/
theorem resolve_c9Tasks_eval : resolveDependencies c9Tasks = Except.ok c9Layers := by
  simp +decide [resolveDependencies, resolveLoop, depsOf, c9Tasks, c9Layers]

/-- Witness for C9: on the diamond DAG `t1 ← {t2,t3} ← t4` the resolver
succeeds with layers `[[t1],[t2,t3],[t4]]`, every task appears in a layer,
and the layer indices respect every dependency edge. -/
theorem team_resolve_dependencies_spec_witness :
    (c9Tasks.map (fun t => t.id)).Nodup
    ∧ (∀ t ∈ c9Tasks, ∃ i lI, c9Layers.get? i = some lI ∧ t ∈ lI)
    ∧ (∀ i j lI lJ a b, c9Layers.get? i = some lI → c9Layers.get? j = some lJ →
        a ∈ lI → b ∈ lJ → a.id ∈ b.depends_on → i < j) := by
  have h := (team_resolve_dependencies_spec c9Tasks (by decide)
    (by decide)).1 c9Layers resolve_c9Tasks_eval
  exact ⟨by decide, h.1, h.2⟩

/-- Executing a task never changes its id. -/
theorem execTask_id (members : List TeamMemberConfig)
    (oracle : TeamMemberConfig → String → Except String MemberRunResult)
    (completed : List (String × String)) (t : TaskW) :
    (execTask members oracle completed t).1.id = t.id := by
  unfold execTask
  split
  · rfl
  · dsimp only
    repeat' split
    all_goals rfl

/-- The sequential layer scan returns a task of the scanned results, and
that task's status is `failed`. -/
theorem layerScan_failed (completed : List (String × String)) (steps : Nat)
    (rs : List (TaskW × Nat)) (c : List (String × String)) (s : Nat) (f : TaskW)
    (h : layerScan completed steps rs = (c, s, some f)) :
    ∃ p ∈ rs, p.1 = f ∧ f.status = "failed" := by
  induction rs generalizing completed steps with
  | nil => simp [layerScan] at h
  | cons p rest ih =>
    obtain ⟨t0, n0⟩ := p
    rw [layerScan] at h
    split at h
    · rename_i hfail
      simp only [Prod.mk.injEq, Option.some.injEq] at h
      obtain ⟨-, -, rfl⟩ := h
      exact ⟨(t0, n0), by simp, rfl, by simpa using hfail⟩
    · obtain ⟨q, hq, hq1, hq2⟩ := ih _ _ h
      exact ⟨q, by simp [hq], hq1, hq2⟩

/-- Association-list lookup of a key mapped over a duplicate-free task
list. -/
theorem lookup_map_self (l : List TaskW) (f : TaskW → TaskW)
    (hids : (l.map (fun t => t.id)).Nodup) (t : TaskW) (ht : t ∈ l) :
    (l.map (fun u => (u.id, f u))).lookup t.id = some (f t) := by
  induction l with
  | nil => cases ht
  | cons u rest ih =>
    have hids2 : (u.id :: rest.map (fun t => t.id)).Nodup := by simpa using hids
    have hunotin : u.id ∉ rest.map (fun t => t.id) := (List.nodup_cons.mp hids2).1
    have hrest : (rest.map (fun t => t.id)).Nodup := (List.nodup_cons.mp hids2).2
    rcases List.mem_cons.mp ht with rfl | hmem
    · simp [List.lookup]
    · by_cases heq : t.id = u.id
      · exact absurd (heq ▸ List.mem_map.mpr ⟨t, hmem, rfl⟩) hunotin
      · have hne : (t.id == u.id) = false := by simpa using heq
        simp only [List.map_cons, List.lookup, hne]
        exact ih hrest hmem

/-- Lookup skips a prefix holding no binding for the key. -/
theorem lookup_append_of_not_mem (l1 l2 : List (String × TaskW)) (a : String)
    (h : a ∉ l1.map Prod.fst) :
    (l1 ++ l2).lookup a = l2.lookup a := by
  induction l1 with
  | nil => rfl
  | cons p rest ih =>
    have hne : ¬ a = p.1 := fun he => h (by simp [he])
    have hbe : (a == p.1) = false := by simpa using hne
    simp only [List.cons_append, List.lookup, hbe]
    exact ih (fun hm => h (by simp [hm]))

/-- Main induction for claim C8: when the layer loop reports a failed
task, that task sits in some pending layer `i`, every task of every layer
after `i` is recorded as skipped with a result naming the failed id, and
only tasks of layers up to `i` ever transitioned to `running`. -/
theorem depGo_failed (members : List TeamMemberConfig)
    (oracle : TeamMemberConfig → String → Except String MemberRunResult) :
    ∀ (pending : List (List TaskW)) (completed : List (String × String)) (steps : Nat)
      (upd : List (String × TaskW)) (executed : List String) (fid : String),
      ((pending.flatten).map (fun t => t.id)).Nodup →
      (∀ t ∈ pending.flatten, t.id ∉ upd.map Prod.fst) →
      (depGo members oracle pending completed steps upd executed).failed = some fid →
      ∃ i lI, pending.get? i = some lI ∧ fid ∈ lI.map (fun t => t.id)
        ∧ (∀ j lJ, pending.get? j = some lJ → i < j → ∀ t ∈ lJ,
            (depGo members oracle pending completed steps upd executed).upd.lookup t.id
              = some (skippedTask fid t))
        ∧ (∀ id ∈ (depGo members oracle pending completed steps upd executed).executed,
            id ∈ executed ∨ ∃ j lJ, pending.get? j = some lJ ∧ j ≤ i
              ∧ id ∈ lJ.map (fun t => t.id)) := by
  intro pending
  induction pending with
  | nil =>
    intro completed steps upd executed fid _ _ hfail
    simp [depGo] at hfail
  | cons layer restLayers ih =>
    intro completed steps upd executed fid hnodup hfresh hfail
    have hflatten : (layer :: restLayers).flatten = layer ++ restLayers.flatten :=
      List.flatten_cons ..
    have hnodup2 : ((layer ++ restLayers.flatten).map (fun t => t.id)).Nodup := by
      rw [← hflatten]; exact hnodup
    rw [List.map_append] at hnodup2
    obtain ⟨hLayerIds, hRestIds, hDisjIds⟩ := List.nodup_append.mp hnodup2
    have hresIds : ((layer.map (fun t => execTask members oracle completed t)).map
        (fun p => (p.1.id, p.1))).map Prod.fst = layer.map (fun t => t.id) := by
      simp only [List.map_map]
      apply List.map_congr_left
      intro t _
      simpa using execTask_id members oracle completed t
    simp only [depGo] at hfail ⊢
    cases hscan : layerScan completed steps
        (layer.map (fun t => execTask members oracle completed t)) with
    | mk c2 p2 =>
      cases p2 with
      | mk s2 fo =>
        rw [hscan] at hfail
        cases fo with
        | none =>
          -- no failure in this layer: recurse
          simp only [] at hfail ⊢
          have hfresh2 : ∀ t ∈ restLayers.flatten,
              t.id ∉ (upd ++ (layer.map (fun t => execTask members oracle completed t)).map
                (fun p => (p.1.id, p.1))).map Prod.fst := by
            intro t htr
            rw [List.map_append, hresIds]
            intro hmem
            rcases List.mem_append.mp hmem with hin | hin
            · exact hfresh t (by rw [hflatten]; exact List.mem_append.mpr (Or.inr htr)) hin
            · exact hDisjIds hin (List.mem_map.mpr ⟨t, htr, rfl⟩)
          obtain ⟨i, lI, hgi, hfidmem, hskip, hexec⟩ :=
            ih c2 s2 _ (executed ++ layer.map (fun t => t.id)) fid hRestIds hfresh2 hfail
          refine ⟨i + 1, lI, by simpa using hgi, hfidmem, ?_, ?_⟩
          · intro j lJ hgj hij t htl
            cases j with
            | zero => omega
            | succ j' =>
              exact hskip j' lJ (by simpa using hgj) (by omega) t htl
          · intro id hid
            rcases hexec id hid with hin | ⟨j, lJ, hgj, hji, hmem⟩
            · rcases List.mem_append.mp hin with h1 | h1
              · exact Or.inl h1
              · exact Or.inr ⟨0, layer, rfl, by omega, h1⟩
            · exact Or.inr ⟨j + 1, lJ, by simpa using hgj, by omega, hmem⟩
        | some f =>
          -- f failed in this layer
          simp only [] at hfail ⊢
          obtain rfl : f.id = fid := by simpa using hfail
          obtain ⟨p, hpmem, hpf, _⟩ := layerScan_failed completed steps _ c2 s2 f hscan
          obtain ⟨t0, ht0, ht0p⟩ := List.mem_map.mp hpmem
          have hfmem : f.id ∈ layer.map (fun t => t.id) := by
            apply List.mem_map.mpr
            refine ⟨t0, ht0, ?_⟩
            rw [← hpf, ← ht0p]
            exact (execTask_id members oracle completed t0).symm
          refine ⟨0, layer, rfl, hfmem, ?_, ?_⟩
          · intro j lJ hgj hij t htl
            cases j with
            | zero => omega
            | succ j' =>
              have hgj' : restLayers.get? j' = some lJ := by simpa using hgj
              have htflat : t ∈ restLayers.flatten :=
                List.mem_flatten.mpr ⟨lJ, List.get?_mem hgj', htl⟩
              have hnotin : t.id ∉ (upd ++ (layer.map (fun t => execTask members oracle completed t)).map
                  (fun p => (p.1.id, p.1))).map Prod.fst := by
                rw [List.map_append, hresIds]
                intro hmem
                rcases List.mem_append.mp hmem with hin | hin
                · exact hfresh t (by rw [hflatten]; exact List.mem_append.mpr (Or.inr htflat)) hin
                · exact hDisjIds hin (List.mem_map.mpr ⟨t, htflat, rfl⟩)
              rw [lookup_append_of_not_mem _ _ _ hnotin]
              exact lookup_map_self restLayers.flatten (skippedTask f.id) hRestIds t htflat
          · intro id hid
            rcases List.mem_append.mp hid with h1 | h1
            · exact Or.inl h1
            · exact Or.inr ⟨0, layer, rfl, le_refl 0, h1⟩

/-- Claim C8, settled against the faithful model with session persistence:
without a session id, whenever `run_with_dependencies` ends a layer with a
failed task the returned response has `success = false` identifying that
task, every task of every strictly later layer is set to status `skipped`
with a result naming the failed task id, and no later-layer task ever
transitions to `running` (every executed id belongs to a layer up to and
including the failing one).  With a truthy `session_id`, however, the call
never returns a response at all: the in-`try` session save constructs the
unimported `RunRecord`, and the resulting `NameError` — raised again by
the generic `except` handler's own save — escapes
`run_with_dependencies`. -/
theorem team_dependency_failure_skips_downstream
    (members : List TeamMemberConfig)
    (oracle : TeamMemberConfig → String → Except String MemberRunResult)
    (tasks : List TaskW) (layers : List (List TaskW))
    (hids : (tasks.map (fun t => t.id)).Nodup)
    (hdeps : ∀ t ∈ tasks, t.depends_on.Nodup)
    (hres : resolveDependencies tasks = Except.ok layers) :
    (∀ resp, (runWithDependencies members oracle none tasks).1 = Except.ok resp →
      ∀ fid, resp.failed_task = some fid →
        resp.success = false
        ∧ ∃ i lI, layers.get? i = some lI ∧ fid ∈ lI.map (fun t => t.id)
          ∧ (∀ j lJ, layers.get? j = some lJ → i < j → ∀ t ∈ lJ,
              ∃ t2 ∈ resp.tasks, t2.id = t.id ∧ t2.status = "skipped"
                ∧ t2.result = some ("Skipped due to dependency failure: " ++ fid))
          ∧ (∀ id ∈ resp.executed,
              ∃ j lJ, layers.get? j = some lJ ∧ j ≤ i ∧ id ∈ lJ.map (fun t => t.id)))
    ∧ (∀ session_id, optStrTruthy session_id = true →
        (runWithDependencies members oracle session_id tasks).1 =
          Except.error nameRunRecordError) := by
  have hperm := (resolveDependencies_ok_sound tasks hids hdeps layers hres).1
  have hFlatIds : ((layers.flatten).map (fun t => t.id)).Nodup :=
    ((hperm.map (fun t => t.id)).nodup_iff).mpr hids
  constructor
  · intro resp hresp fid hfid
    unfold runWithDependencies at hresp
    rw [hres] at hresp
    simp only [] at hresp
    cases hg : (depGo members oracle layers [] 0 [] []).failed with
    | none =>
      rw [hg] at hresp
      simp only [optStrTruthy, Bool.false_eq_true, if_false, Except.ok.injEq] at hresp
      rw [← hresp] at hfid
      simp at hfid
    | some fid2 =>
      rw [hg] at hresp
      simp only [optStrTruthy, Bool.false_eq_true, if_false, Except.ok.injEq] at hresp
      rw [← hresp] at hfid ⊢
      simp only [] at hfid
      have hfe : fid2 = fid := by simpa using hfid
      rw [← hfe]
      obtain ⟨i, lI, hgi, hmem, hskip, hexec⟩ :=
        depGo_failed members oracle layers [] 0 [] [] fid2 hFlatIds (by simp) hg
      refine ⟨rfl, i, lI, hgi, hmem, ?_, ?_⟩
      · intro j lJ hgj hij t htl
        have htflat : t ∈ layers.flatten :=
          List.mem_flatten.mpr ⟨lJ, List.get?_mem hgj, htl⟩
        have httasks : t ∈ tasks := hperm.mem_iff.mp htflat
        refine ⟨applyUpd (depGo members oracle layers [] 0 [] []).upd t,
          List.mem_map.mpr ⟨t, httasks, rfl⟩, ?_⟩
        have hlook := hskip j lJ hgj hij t htl
        rw [applyUpd, hlook]
        exact ⟨rfl, rfl, rfl⟩
      · intro id hid
        rcases hexec id hid with h1 | h1
        · cases h1
        · exact h1
  · intro session_id hsid
    unfold runWithDependencies
    rw [hres]
    cases hg : (depGo members oracle layers [] 0 [] []).failed with
    | none => simp [hg, hsid]
    | some fid => simp [hg, hsid]

/-- The single-member team used to witness C8. -/
def c8Members : List TeamMemberConfig := [{ id := "m", name := "M", role := "r" }]

/-- A member-run oracle (raising no exception) that fails exactly on task
descriptions starting with the character `b` (code point 98) — the
description of `t2` — and succeeds elsewhere. -/
def c8Oracle : TeamMemberConfig → String → Except String MemberRunResult := fun _ desc =>
  Except.ok
    { member_name := "M", member_role := "r", task := desc, response := "ok"
      success := match desc.data with | c :: _ => !(c == Char.ofNat 98) | [] => true
      error := some "boom", steps := 1 }

/-- Witness for C8: on the diamond DAG with `t2` forced to fail and no
session id, the run returns a response reporting failure at `t2`, the
layer-2 task `t4` ends `skipped` with a result naming `t2`, and only ids
of layers 0-1 ever ran; with the session id `"s1"` the same run propagates
the `RunRecord` `NameError` instead of returning any response. -/
theorem team_dependency_failure_skips_downstream_witness :
    (∃ resp, (runWithDependencies c8Members c8Oracle none c9Tasks).1 = Except.ok resp
      ∧ resp.failed_task = some "t2"
      ∧ (resp.success = false
         ∧ ∃ i lI, c9Layers.get? i = some lI ∧ "t2" ∈ lI.map (fun t => t.id)
           ∧ (∀ j lJ, c9Layers.get? j = some lJ → i < j → ∀ t ∈ lJ,
               ∃ t2 ∈ resp.tasks, t2.id = t.id ∧ t2.status = "skipped"
                 ∧ t2.result = some ("Skipped due to dependency failure: " ++ "t2"))
           ∧ (∀ id ∈ resp.executed,
               ∃ j lJ, c9Layers.get? j = some lJ ∧ j ≤ i ∧ id ∈ lJ.map (fun t => t.id))))
    ∧ (runWithDependencies c8Members c8Oracle (some "s1") c9Tasks).1 =
        Except.error nameRunRecordError := by
  obtain ⟨resp, hresp, hfid⟩ : ∃ resp,
      (runWithDependencies c8Members c8Oracle none c9Tasks).1 = Except.ok resp
      ∧ resp.failed_task = some "t2" := by
    unfold runWithDependencies
    rw [resolve_c9Tasks_eval]
    refine ⟨_, rfl, ?_⟩
    decide
  have hthm := team_dependency_failure_skips_downstream c8Members c8Oracle c9Tasks c9Layers
    (by decide) (by decide) resolve_c9Tasks_eval
  exact ⟨⟨resp, hresp, hfid, hthm.1 resp hresp "t2" hfid⟩, hthm.2 (some "s1") (by decide)⟩

end SkillAgent
